import Mathlib

/-!
Verification of the DistrictBuilder setup pipeline
(`src/django/publicmapping/redistricting/management/commands/setup.py`).

The development shallowly embeds the pieces of the management command that
the specification talks about:

* the Characteristic Quantizer (the `Decimal(...).quantize(...)` expression
  in `import_shape`),
* the Hierarchy Reconciler (`import_prereq`),
* the Geounit Importer (`import_geolevel` / `import_shape`),
* the Geometry Repairer (the centroid-repair block of `import_shape`),
* the Provisioning Client (`rest_config` / `configure_geoserver`).

Database tables are lists of rows; Django's `get_or_create` becomes an
append-if-absent operation on those lists; Django's `.get`/`filter(...)[0]`
lookups become `List.find?` (the first matching row; the configuration is
XSD-validated and id-ref checked per the source's comment, so natural keys
are assumed unique and the `MultipleObjectsReturned` path is not modelled).
Geometry (GEOS) is embedded over exact rational coordinates for polygons
given as vertex lists in counterclockwise order without holes, which is the
fragment the claims exercise.
-/

set_option autoImplicit false

deriving instance DecidableEq for Except

namespace DistrictBuilder


/-! ## Generic list helpers -/

/-- Django `get_or_create` with every column in the lookup: if a row equal to
`r` is present the table is unchanged, otherwise `r` is appended. -/
def gocList {ρ : Type} [DecidableEq ρ] (l : List ρ) (r : ρ) : List ρ :=
  if r ∈ l then l else l ++ [r]

/-- Left fold that stops at the first step reporting an error, returning the
state at that point (mutations already committed stay committed, matching
the absence of a transaction around the import code). -/
def foldE {σ α ε : Type} (f : σ → α → σ × Option ε) : σ → List α → σ × Option ε
  | s, [] => (s, none)
  | s, a :: as =>
    match f s a with
    | (s', none) => foldE f s' as
    | (s', some e) => (s', some e)

/-- Consume a run of decimal digits, returning the accumulated value, the
number of digits consumed and the rest of the input. -/
def takeDigits : Nat → Nat → List Char → Nat × Nat × List Char
  | acc, cnt, [] => (acc, cnt, [])
  | acc, cnt, c :: cs =>
    if c.isDigit then takeDigits (acc * 10 + (c.toNat - 48)) (cnt + 1) cs
    else (acc, cnt, c :: cs)

/-- Parse a plain decimal string (optional sign, integer digits, optional
fractional part) into an unscaled integer coefficient and a fractional-digit
count, the way the `Decimal` constructor reads such strings.  Anything else
(including the empty string) fails the way `Decimal` raises
`InvalidOperation`.  Exponent notation is not modelled. -/
def parseDecimal (s : String) : Option (Int × Nat) :=
  let cs := s.data
  let signAndRest : Int × List Char :=
    match cs with
    | '-' :: rest => (-1, rest)
    | '+' :: rest => (1, rest)
    | _ => (1, cs)
  let sign := signAndRest.1
  let afterSign := signAndRest.2
  let ipr := takeDigits 0 0 afterSign
  match ipr.2.2 with
  | [] => if ipr.2.1 = 0 then none else some (sign * ipr.1, 0)
  | '.' :: rest =>
    let fpr := takeDigits 0 0 rest
    if fpr.2.2 = [] ∧ 0 < ipr.2.1 + fpr.2.1 then
      some (sign * (ipr.1 * 10 ^ fpr.2.1 + fpr.1), fpr.2.1)
    else none
  | _ => none

/-- Round `m / 10 ^ d` to the nearest integer, ties to even
(`ROUND_HALF_EVEN`, the default decimal context rounding). -/
def roundHalfEven (m : Int) (d : Nat) : Int :=
  let den : Int := (10 : Int) ^ d
  let q := Int.fdiv m den
  let r := m - q * den
  if 2 * r < den then q
  else if den < 2 * r then q + 1
  else if q % 2 = 0 then q else q + 1

/-- Quantize a coefficient with `fd` fractional digits to 4 fractional
digits using the rounding mode `m`. -/
def quantTo4 (round : Int → Nat → Int) (m : Int) (fd : Nat) : Int :=
  if fd ≤ 4 then m * 10 ^ (4 - fd) else round m (fd - 4)

/-- The quantization the code actually performs: parse, then quantize to
exponent `-4` under the default `ROUND_HALF_EVEN` (the `'ROUND_DOWN'`
literal being swallowed by the `Decimal` constructor).  The result is the
characteristic value scaled by `10 ^ 4`. -/
def quantizeCode (s : String) : Option Int :=
  (parseDecimal s).map fun p => quantTo4 roundHalfEven p.1 p.2

/-- Truncation toward zero of `m / 10 ^ d` (`ROUND_DOWN`). -/
def truncDiv (m : Int) (d : Nat) : Int :=
  Int.tdiv m ((10 : Int) ^ d)

/-- Modelled from the spec: the quantization the specification describes,
parsing the value and truncating (never rounding) the fractional remainder
to the fixed four-fractional-digit scale. -/
def quantizeTrunc (s : String) : Option Int :=
  (parseDecimal s).map fun p => quantTo4 truncDiv p.1 p.2

/-! ## The Provisioning Client

`rest_config` issues one HTTP request and returns `True` exactly when the
response status is 200 or 201; any other status, and any raised exception
(connection failure), returns `False` after printing an error.
`configure_geoserver` is a chain of `if not self.rest_config(...): return
False` steps, i.e. it performs its planned calls in order and aborts the
remainder of the sequence at the first call that reports `False`; nothing is
ever deleted or compensated. -/

/-- The outcome of one REST call: a response status, or a raised exception
(connection failure). -/
inductive RestOutcome : Type
  | status (code : Nat)
  | connFailure
  deriving DecidableEq, Repr

/-- Whether `rest_config` reports success for an outcome: status 201 or 200
only (`if rsp.status != 201 and rsp.status != 200: ... return False`,
`except: ... return False`). -/
def restConfigOk : RestOutcome → Bool
  | .status c => c == 201 || c == 200
  | .connFailure => false

/-- The `configure_geoserver` driver over its ordered sequence of planned
calls, given the outcome of each call: issues calls in order, aborting at
the first failed call.  Returns the number of calls actually issued and
whether the whole sequence succeeded.  Issued calls are never rolled back:
the count only grows as the sequence proceeds. -/
def runProvisioning : List RestOutcome → Nat × Bool
  | [] => (0, true)
  | r :: rs =>
    if restConfigOk r then
      let p := runProvisioning rs
      (p.1 + 1, p.2)
    else (1, false)

/-! ## Exact rational coordinates

Coordinates are exact fractions with a positive denominator, without gcd
normalization (the built-in `Rat` normalizes through `Nat.gcd`, which the
kernel cannot evaluate, so concrete geometric facts could not be settled by
`decide` over it).  All geometric comparisons use the cross-multiplied
semantic tests `Frac.beq`, `Frac.ble`, `Frac.blt`. -/

/-- An exact fraction `num / den` with `0 < den`; representations are not
reduced. -/
structure Frac where
  num : Int
  den : Int
  pos : 0 < den

instance : DecidableEq Frac := fun a b =>
  decidable_of_iff (a.num = b.num ∧ a.den = b.den)
    (by
      constructor
      · rintro ⟨h1, h2⟩
        cases a
        cases b
        simp only at h1 h2
        subst h1
        subst h2
        rfl
      · rintro rfl
        exact ⟨rfl, rfl⟩)

instance : Repr Frac := ⟨fun a _ => repr (a.num, a.den)⟩

/-- Embed an integer. -/
def Frac.ofInt (n : Int) : Frac := ⟨n, 1, Int.zero_lt_one⟩

instance (n : Nat) : OfNat Frac n := ⟨Frac.ofInt n⟩

instance : Neg Frac := ⟨fun a => ⟨-a.num, a.den, a.pos⟩⟩

instance : Add Frac :=
  ⟨fun a b => ⟨a.num * b.den + b.num * a.den, a.den * b.den, mul_pos a.pos b.pos⟩⟩

instance : Sub Frac :=
  ⟨fun a b => ⟨a.num * b.den - b.num * a.den, a.den * b.den, mul_pos a.pos b.pos⟩⟩

instance : Mul Frac :=
  ⟨fun a b => ⟨a.num * b.num, a.den * b.den, mul_pos a.pos b.pos⟩⟩

/-- Exact division; division by an (exactly) zero fraction yields zero, the
field convention. -/
def Frac.div (a b : Frac) : Frac :=
  if h : 0 < b.num then ⟨a.num * b.den, a.den * b.num, mul_pos a.pos h⟩
  else if h2 : b.num < 0 then
    ⟨-(a.num * b.den), a.den * -b.num, mul_pos a.pos (by omega)⟩
  else ⟨0, 1, Int.zero_lt_one⟩

instance : Div Frac := ⟨Frac.div⟩

/-- Semantic order: `a ≤ b` by cross multiplication. -/
def Frac.ble (a b : Frac) : Bool := decide (a.num * b.den ≤ b.num * a.den)

/-- Semantic strict order. -/
def Frac.blt (a b : Frac) : Bool := decide (a.num * b.den < b.num * a.den)

/-- Semantic equality. -/
def Frac.beq (a b : Frac) : Bool := decide (a.num * b.den = b.num * a.den)

/-- Semantic minimum (the earlier argument when equal). -/
def Frac.fmin (a b : Frac) : Frac := if a.ble b then a else b

/-- Semantic maximum (the later argument when equal). -/
def Frac.fmax (a b : Frac) : Frac := if a.ble b then b else a

/-! ## Geometry

The importer handles each feature's geometry with GEOS: coercion of bare
polygons to multipolygons, topology-preserving simplification, centroid,
`within`, extent, and intersection with a horizontal line.  The embedding
computes these exactly for polygons given as vertex lists in
counterclockwise order without holes.  Simplification is an external GEOS
algorithm whose output no claim inspects, so it is threaded through as an
explicit function argument; only the code's re-coercion of a degraded
result is modelled. -/

/-- A planar point with exact rational coordinates. -/
structure Pt where
  x : Frac
  y : Frac
  deriving DecidableEq, Repr

/-- A polygon: its exterior vertex list, counterclockwise, without holes. -/
abbrev Poly := List Pt

/-- A raw feature geometry as GDAL hands it over: a polygon, a multipolygon,
or some other geometry type (point, line, ...). -/
inductive RawGeom : Type
  | poly (r : Poly)
  | multi (rs : List Poly)
  | other
  deriving DecidableEq, Repr

/-- The edges of a polygon, each vertex paired with its cyclic successor. -/
def edges : Poly → List (Pt × Pt)
  | [] => []
  | p :: ps => (p :: ps).zip (ps ++ [p])

/-- The cross term of one edge in the shoelace formula. -/
def crossT (e : Pt × Pt) : Frac := e.1.x * e.2.y - e.2.x * e.1.y

/-- Twice the signed area of a polygon (shoelace). -/
def area2 (r : Poly) : Frac := (edges r).foldl (fun a e => a + crossT e) 0

/-- Shoelace centroid numerator sums of a polygon. -/
def centroidSums (r : Poly) : Frac × Frac :=
  (edges r).foldl
    (fun a e => (a.1 + (e.1.x + e.2.x) * crossT e, a.2 + (e.1.y + e.2.y) * crossT e))
    (0, 0)

/-- The centroid of one polygon (GEOS `Polygon.centroid`). -/
def polyCentroid (r : Poly) : Pt :=
  ⟨(centroidSums r).1 / (3 * area2 r), (centroidSums r).2 / (3 * area2 r)⟩

/-- The centroid of a multipolygon: the area-weighted aggregate of the
shoelace sums over all member polygons (GEOS `MultiPolygon.centroid`). -/
def multiCentroid (rs : List Poly) : Pt :=
  let a2 := rs.foldl (fun a r => a + area2 r) 0
  let sx := rs.foldl (fun a r => a + (centroidSums r).1) 0
  let sy := rs.foldl (fun a r => a + (centroidSums r).2) 0
  ⟨sx / (3 * a2), sy / (3 * a2)⟩

/-- Whether `p` lies on the closed segment from `a` to `b`. -/
def onSeg (p a b : Pt) : Bool :=
  Frac.beq ((b.x - a.x) * (p.y - a.y)) ((b.y - a.y) * (p.x - a.x)) &&
  Frac.ble (Frac.fmin a.x b.x) p.x && Frac.ble p.x (Frac.fmax a.x b.x) &&
  Frac.ble (Frac.fmin a.y b.y) p.y && Frac.ble p.y (Frac.fmax a.y b.y)

/-- Whether `p` lies on the boundary of polygon `r`. -/
def onBoundary (p : Pt) (r : Poly) : Bool :=
  (edges r).any fun e => onSeg p e.1 e.2

/-- Whether the horizontal ray from `p` toward `+x` crosses edge `e`
(standard half-open ray-casting rule, exact arithmetic). -/
def rayCrosses (p : Pt) (e : Pt × Pt) : Bool :=
  (Frac.blt p.y e.1.y != Frac.blt p.y e.2.y) &&
  Frac.blt p.x (e.1.x + (p.y - e.1.y) * (e.2.x - e.1.x) / (e.2.y - e.1.y))

/-- Whether `p` lies in the open interior of polygon `r`. -/
def inInterior (p : Pt) (r : Poly) : Bool :=
  !onBoundary p r && ((edges r).filter (rayCrosses p)).length % 2 == 1

/-- GEOS `Point.within(MultiPolygon)`: true exactly when the point lies in
the interior (a point on the boundary is *not* within). -/
def withinMulti (p : Pt) (rs : List Poly) : Bool :=
  rs.any (inInterior p)

/-- Whether `p` lies in the closed region of polygon `r`. -/
def inClosed (p : Pt) (r : Poly) : Bool :=
  onBoundary p r || inInterior p r

/-- Minimum x-coordinate of a polygon's vertices (`extent[0]`). -/
def minX : Poly → Frac
  | [] => 0
  | p :: ps => ps.foldl (fun m q => Frac.fmin m q.x) p.x

/-- Maximum x-coordinate of a polygon's vertices (`extent[2]`). -/
def maxX : Poly → Frac
  | [] => 0
  | p :: ps => ps.foldl (fun m q => Frac.fmax m q.x) p.x

/-- The x-coordinates at which edge `e` meets the horizontal line `y = c`:
both endpoints for an edge lying on the line, the interpolated crossing for
an edge spanning it, nothing otherwise. -/
def edgeXsAt (c : Frac) (e : Pt × Pt) : List Frac :=
  if Frac.beq e.1.y c && Frac.beq e.2.y c then [e.1.x, e.2.x]
  else if (Frac.ble (Frac.fmin e.1.y e.2.y) c && Frac.ble c (Frac.fmax e.1.y e.2.y)) &&
      !Frac.beq e.1.y e.2.y then
    [e.1.x + (c - e.1.y) * (e.2.x - e.1.x) / (e.2.y - e.1.y)]
  else []

/-- Insert into a sorted list, dropping duplicates. -/
def insSorted (x : Frac) : List Frac → List Frac
  | [] => [x]
  | y :: ys =>
    if Frac.beq x y then y :: ys
    else if Frac.blt x y then x :: y :: ys
    else y :: insSorted x ys

/-- Sort and deduplicate (semantically). -/
def sortDedup (l : List Frac) : List Frac := l.foldr insSorted []

/-- From the sorted candidate x-list, keep each consecutive span whose
midpoint lies in the closed polygon at height `c`. -/
def adjIntervals (c : Frac) (r : Poly) : List Frac → List (Frac × Frac)
  | x :: y :: rest =>
    if inClosed ⟨(x + y) / 2, c⟩ r then (x, y) :: adjIntervals c r (y :: rest)
    else adjIntervals c r (y :: rest)
  | _ => []

/-- Extend the current span with every following span that starts where it
ends, then emit it and continue. -/
def mergeInto (i : Frac × Frac) : List (Frac × Frac) → List (Frac × Frac)
  | [] => [i]
  | j :: rest =>
    if Frac.beq i.2 j.1 then mergeInto (i.1, j.2) rest
    else i :: mergeInto j rest

/-- Dissolve adjacent spans sharing an endpoint into maximal components, the
way the GEOS overlay returns maximal linear components. -/
def mergeAdj : List (Frac × Frac) → List (Frac × Frac)
  | [] => []
  | i :: rest => mergeInto i rest

/-- GEOS `LineString((min_x, c), (max_x, c)).intersection(polygon)`: the
maximal subsegments of the horizontal segment that lie in the closed
polygon, in ascending x order, each returned with its endpoints.  Isolated
tangency points are dropped (they contribute nothing to the centroid of the
linear part). -/
def sliceAt (c minx maxx : Frac) (r : Poly) : List (Pt × Pt) :=
  let cands : List Frac :=
    sortDedup ((minx :: maxx :: (edges r).foldr (fun e a => edgeXsAt c e ++ a) []).filter
      fun x => Frac.ble minx x && Frac.ble x maxx)
  (mergeAdj (adjIntervals c r cands)).map fun i => (⟨i.1, c⟩, ⟨i.2, c⟩)

/-- The centroid of one line segment: its midpoint. -/
def segMidpoint (s : Pt × Pt) : Pt :=
  ⟨(s.1.x + s.2.x) / 2, (s.1.y + s.2.y) / 2⟩

/-- Errors the geometry block of `import_shape` can raise; each is caught by
the bare `except:` around the block and skips the feature. -/
inductive GeomError : Type
  | unsupported
  | degenerateSimplify
  | emptyMulti
  | emptyIntersection
  deriving DecidableEq, Repr

/-- Coerce a geometry into a multipolygon: polygons are wrapped
(`MultiPolygon(geos)`), multipolygons pass through; any other type leaves
`my_geom` unbound and the block raises. -/
def coerceMulti : RawGeom → Except GeomError (List Poly)
  | .multi rs => .ok rs
  | .poly r => .ok [r]
  | .other => .error .unsupported

/-- Re-coerce the simplification result (`if simple.geom_type !=
'MultiPolygon': simple = MultiPolygon(simple)`); a result that is neither a
polygon nor a multipolygon makes that constructor raise. -/
def coerceSimplified : RawGeom → Except GeomError (List Poly)
  | .multi rs => .ok rs
  | .poly r => .ok [r]
  | .other => .error .degenerateSimplify

/-- The geometry block of `import_shape` for one feature: coerce to
multipolygon, simplify (via the supplied external simplifier) and
re-coerce, compute the centroid, and if the centroid is not within the
geometry repair it from the first member polygon: intersect the horizontal
segment spanning the first polygon's x-extent at that polygon's own
centroid latitude with the first polygon, take the first part if the result
is multi-part, and use its centroid.  Returns (validated geometry,
simplified geometry, centroid). -/
def processGeom (simplifyFn : List Poly → RawGeom) (g : RawGeom) :
    Except GeomError (List Poly × List Poly × Pt) := do
  let rs ← coerceMulti g
  let simple ← coerceSimplified (simplifyFn rs)
  let center := multiCentroid rs
  if withinMulti center rs then
    return (rs, simple, center)
  else
    match rs with
    | [] => .error .emptyMulti
    | r :: _ =>
      match sliceAt (polyCentroid r).y (minX r) (maxX r) r with
      | [] => .error .emptyIntersection
      | seg :: _ => return (rs, simple, segMidpoint seg)

/-! ## Data model

Rows carry exactly the columns the command reads or writes.  Configuration
attribute values stay strings, as the code passes them to the ORM without
conversion (`body.get('maxdistricts')`, `targ.get('value')`, ...). -/

/-- A `LegislativeBody` row as created by `import_prereq`. -/
structure LegislativeBodyRow where
  name : String
  member : String
  max_districts : String
  deriving DecidableEq, Repr

/-- A `Subject` row as created by `import_prereq`. -/
structure SubjectRow where
  name : String
  display : String
  short_display : String
  is_displayed : Bool
  sort_key : String
  deriving DecidableEq, Repr

/-- A `Target` row; the subject is referenced by its (unique) name. -/
structure TargetRow where
  subject : String
  value : String
  range1 : String
  range2 : String
  deriving DecidableEq, Repr

/-- A `Geolevel` row. -/
structure GeolevelRow where
  name : String
  min_zoom : String
  sort_key : String
  deriving DecidableEq, Repr

/-- A `LegislativeLevel` row.  The parent reference is recorded by the
parent level's geolevel name: the parent lookup always uses the same
legislative body and target as the child, so the geolevel name determines
the parent row. -/
structure LegislativeLevelRow where
  legislative_body : String
  geolevel : String
  target : TargetRow
  parent : Option String
  deriving DecidableEq, Repr

/-- A `LegislativeDefaults` row (at most one per body; its target is
overwritten on every reconciliation pass). -/
structure LegislativeDefaultsRow where
  legislative_body : String
  target : TargetRow
  deriving DecidableEq, Repr

/-- An auth `User` row; only the fields this command touches. -/
structure UserRow where
  username : String
  password : Option String
  deriving DecidableEq, Repr

/-- A `Geounit` row. -/
structure GeounitRow where
  name : String
  geolevel : String
  supplemental_id : Option String
  geom : List Poly
  simple : List Poly
  center : Pt
  deriving DecidableEq, Repr

/-- A `Characteristic` row; `number` is the quantized value scaled by
`10 ^ 4`, and `geounit` is the owning Geounit's primary key (its index in
the geounits table). -/
structure CharacteristicRow where
  subject : String
  number : Int
  geounit : Nat
  deriving DecidableEq, Repr

/-- The relational store: one list of rows per table, rows in insertion
order (Django appends on create). -/
structure DB where
  bodies : List LegislativeBodyRow
  subjects : List SubjectRow
  targets : List TargetRow
  geolevels : List GeolevelRow
  levels : List LegislativeLevelRow
  defaults : List LegislativeDefaultsRow
  users : List UserRow
  geounits : List GeounitRow
  characteristics : List CharacteristicRow
  deriving DecidableEq, Repr

/-- The empty store. -/
def dbEmpty : DB := ⟨[], [], [], [], [], [], [], [], []⟩

/-! ## Configuration

The parsed XML configuration, restricted to the nodes and attributes the
command reads.  Element order is document order. -/

/-- A top-level `LegislativeBody` element (`//LegislativeBody[@id]`). -/
structure BodyCfg where
  id : String
  name : String
  member : String
  maxdistricts : String
  deriving DecidableEq, Repr

/-- A `Subject` element (`//Subject[@id]`), with its optional `aliasfor`
reference and the shapefile `field` it reads. -/
structure SubjectCfg where
  id : String
  name : String
  short_name : String
  displayed : String
  sortkey : String
  aliasfor : Option String
  field : String
  deriving DecidableEq, Repr

/-- A `Target` element (`//Targets/Target`). -/
structure TargetCfg where
  id : String
  subjectref : String
  value : String
  range1 : String
  range2 : String
  deriving DecidableEq, Repr

/-- A `LegislativeTarget` element: a target reference plus the optional
`default` attribute. -/
structure LegTargetRef where
  ref : String
  default : Option String
  deriving DecidableEq, Repr

/-- A `LegislativeBody` reference element nested under a `GeoLevel`,
carrying its `LegislativeTarget` list and optional `Parent` geolevel
reference. -/
structure LBodyRef where
  ref : String
  targets : List LegTargetRef
  parent : Option String
  deriving DecidableEq, Repr

/-- A `GeoLevel` element (`//GeoLevels/GeoLevel`). -/
structure GeoLevelCfg where
  id : String
  name : String
  min_zoom : String
  sort_key : String
  shapefile : String
  namefield : String
  supplementfield : Option String
  lbodies : List LBodyRef
  deriving DecidableEq, Repr

/-- The whole configuration document. -/
structure Config where
  bodies : List BodyCfg
  subjects : List SubjectCfg
  targets : List TargetCfg
  geolevels : List GeoLevelCfg
  deriving DecidableEq, Repr

/-! ## Hierarchy Reconciler (`import_prereq`) -/

/-- Errors raised inside `import_prereq`; any of them propagates out of the
command (there is no exception handler), so the step that raises is the
last thing the reconciler does. -/
inductive PrereqError : Type
  | missingSubjectCfg (id : String)
  | missingSubjectRow (name : String)
  | missingTargetCfg (id : String)
  | missingTargetRow (subject value : String)
  | missingBodyCfg (id : String)
  | missingBodyRow (name : String)
  | missingGeolevelCfg (id : String)
  | missingGeolevelRow (name : String)
  | missingParentLevel (body geolevel : String)
  deriving DecidableEq, Repr

/-- The row built for a body config entry. -/
def mkBodyRow (b : BodyCfg) : LegislativeBodyRow :=
  ⟨b.name, b.member, b.maxdistricts⟩

/-- The row built for a (non-alias) subject config entry; `name` is the
config `id` attribute (`name=subj.get('id')`). -/
def mkSubjectRow (s : SubjectCfg) : SubjectRow :=
  ⟨s.id, s.name, s.short_name, s.displayed == "true", s.sortkey⟩

/-- The row built for a geolevel config entry. -/
def mkGlvlRow (g : GeoLevelCfg) : GeolevelRow :=
  ⟨g.name, g.min_zoom, g.sort_key⟩

/-- Dereference a subject reference, following one `aliasfor` hop the way
the code does (`if not subconfig.get('aliasfor') is None: subconfig =
...aliasfor...`); a dangling reference is an xpath `[0]` IndexError. -/
def resolveSubjectCfg (cfg : Config) (sref : String) : Option SubjectCfg :=
  match cfg.subjects.find? fun s => s.id == sref with
  | none => none
  | some sc =>
    match sc.aliasfor with
    | none => some sc
    | some a => cfg.subjects.find? fun s => s.id == a

/-- Look up a target config entry by id (`//Target[@id="..."]`). -/
def findTargetCfg (cfg : Config) (tid : String) : Option TargetCfg :=
  cfg.targets.find? fun t => t.id == tid

/-- Step 1 of `import_prereq`: `get_or_create` every legislative body. -/
def importBodies (cfg : Config) (db : DB) : DB :=
  { db with bodies := (cfg.bodies.map mkBodyRow).foldl gocList db.bodies }

/-- Step 2 of `import_prereq`: `get_or_create` every subject, skipping
subjects declared with `aliasfor`. -/
def importSubjects (cfg : Config) (db : DB) : DB :=
  let rows := (cfg.subjects.filter fun s => s.aliasfor.isNone).map mkSubjectRow
  { db with subjects := rows.foldl gocList db.subjects }

/-- Step 3 of `import_prereq`, one target: dereference the subject alias,
fetch the subject row (`filter(name=...)[0]`), and `get_or_create` the
target bound to it. -/
def processTarget (cfg : Config) (db : DB) (t : TargetCfg) : DB × Option PrereqError :=
  match resolveSubjectCfg cfg t.subjectref with
  | none => (db, some (.missingSubjectCfg t.subjectref))
  | some sc =>
    match db.subjects.find? fun r => r.name == sc.id with
    | none => (db, some (.missingSubjectRow sc.id))
    | some srow =>
      ({ db with targets := gocList db.targets ⟨srow.name, t.value, t.range1, t.range2⟩ },
       none)

/-- `LegislativeDefaults.objects.get_or_create(legislative_body=...)`
followed by `obj.target = target; obj.save()`: update the body's row in
place, creating it first if absent. -/
def setDefault (db : DB) (body : String) (t : TargetRow) : DB :=
  { db with defaults :=
      if db.defaults.any fun d => d.legislative_body == body then
        db.defaults.map fun d =>
          if d.legislative_body == body then { d with target := t } else d
      else db.defaults ++ [⟨body, t⟩] }

/-- Resolve the `Parent` reference of a legislative level: find the parent
geolevel's config entry, its `Geolevel` row, and the already-created
`LegislativeLevel` row for the same body and target.  Each miss raises. -/
def resolveParent (cfg : Config) (db : DB) (body : String) (t : TargetRow) :
    Option String → Except PrereqError (Option String)
  | none => .ok none
  | some pid =>
    match cfg.geolevels.find? fun g => g.id == pid with
    | none => .error (.missingGeolevelCfg pid)
    | some pcfg =>
      match db.geolevels.find? fun r => r.name == pcfg.name with
      | none => .error (.missingGeolevelRow pcfg.name)
      | some plvl =>
        match db.levels.find? fun r =>
            r.legislative_body == body && r.geolevel == plvl.name && r.target == t with
        | none => .error (.missingParentLevel body plvl.name)
        | some prow => .ok (some prow.geolevel)

/-- The tail of one `LegislativeTarget` step, after the target row has been
resolved: resolve the parent level and `get_or_create` the legislative
level. -/
def finishLegTarget (cfg : Config) (brow : LegislativeBodyRow) (grow : GeolevelRow)
    (lb : LBodyRef) (db : DB) (trow : TargetRow) : DB × Option PrereqError :=
  match resolveParent cfg db brow.name trow lb.parent with
  | .error e => (db, some e)
  | .ok parent =>
    ({ db with levels := gocList db.levels ⟨brow.name, grow.name, trow, parent⟩ }, none)

/-- One `LegislativeTarget` inside one body reference of one geolevel:
resolve the target (through the subject alias), set the body's default if
flagged, resolve the parent level, and `get_or_create` the legislative
level.  The default is written before the parent lookup, matching the
statement order in the source. -/
def processLegTarget (cfg : Config) (brow : LegislativeBodyRow) (grow : GeolevelRow)
    (lb : LBodyRef) (db : DB) (tr : LegTargetRef) : DB × Option PrereqError :=
  match findTargetCfg cfg tr.ref with
  | none => (db, some (.missingTargetCfg tr.ref))
  | some tc =>
    match resolveSubjectCfg cfg tc.subjectref with
    | none => (db, some (.missingSubjectCfg tc.subjectref))
    | some sc =>
      match db.subjects.find? fun r => r.name == sc.id with
      | none => (db, some (.missingSubjectRow sc.id))
      | some srow =>
        match db.targets.find? fun r =>
            r.subject == srow.name && r.value == tc.value &&
            r.range1 == tc.range1 && r.range2 == tc.range2 with
        | none => (db, some (.missingTargetRow srow.name tc.value))
        | some trow =>
          finishLegTarget cfg brow grow lb
            (if tr.default.isSome then setDefault db brow.name trow else db) trow

/-- One `LegislativeBody` reference under a geolevel: dereference the body
config and row, then process each legislative target. -/
def processLBody (cfg : Config) (grow : GeolevelRow) (db : DB) (lb : LBodyRef) :
    DB × Option PrereqError :=
  match cfg.bodies.find? fun b => b.id == lb.ref with
  | none => (db, some (.missingBodyCfg lb.ref))
  | some bc =>
    match db.bodies.find? fun r => r.name == bc.name with
    | none => (db, some (.missingBodyRow bc.name))
    | some brow => foldE (processLegTarget cfg brow grow lb) db lb.targets

/-- Step 4 of `import_prereq`, one geolevel: `get_or_create` the geolevel
row, then process each nested body reference. -/
def processGeoLevel (cfg : Config) (db : DB) (g : GeoLevelCfg) : DB × Option PrereqError :=
  let db1 := { db with geolevels := gocList db.geolevels (mkGlvlRow g) }
  foldE (processLBody cfg (mkGlvlRow g)) db1 g.lbodies

/-- The final step of `import_prereq`:
`User.objects.get_or_create(username='anonymous')`, and when the user
already existed, `set_password('anonymous')`.  A newly created user's
password is never set. -/
def importAnon (db : DB) : DB :=
  if db.users.any fun u => u.username == "anonymous" then
    { db with users :=
        db.users.map fun u =>
          if u.username == "anonymous" then { u with password := some "anonymous" } else u }
  else { db with users := db.users ++ [⟨"anonymous", none⟩] }

/-- `import_prereq`: bodies, then subjects, then targets, then geolevels
with their legislative-level graph, then the anonymous user.  The state at
the first raised error is returned alongside it (no transaction wraps the
step). -/
def importPrereq (cfg : Config) (db : DB) : DB × Option PrereqError :=
  match foldE (processTarget cfg) (importSubjects cfg (importBodies cfg db)) cfg.targets with
  | (db2, some e) => (db2, some e)
  | (db2, none) =>
    match foldE (processGeoLevel cfg) db2 cfg.geolevels with
    | (db3, some e) => (db3, some e)
    | (db3, none) => (importAnon db3, none)

/-! ## Geounit Importer (`import_geolevel` / `import_shape`)

`import_geolevel` assembles a per-geolevel import configuration: for each
`LegislativeTarget` reference nested under the geolevel it dereferences the
target and subject; a subject declared with `aliasfor` gets the aliased
(canonical) subject element appended as a child, which `import_shape` later
prefers when resolving the Subject row.  `import_shape` then walks the
shapefile features: the geometry block (coercion, simplification, centroid
repair, name and supplemental-id reads, Geounit save) sits in a bare
`try/except` whose handler records the failure and `continue`s; the
characteristic loop that follows is *outside* that handler, and in it only
the `Characteristic` construction and save are guarded — the
`Decimal(...).quantize(...)` call is not, so a parse or quantize failure
propagates and kills the whole import. -/

/-- One entry of `gconfig['subject_fields']`: the shapefile field, the
(possibly alias) subject id, and, when the subject was an alias, the
canonical subject id appended as a child element. -/
structure SubjectFieldCfg where
  field : String
  sid : String
  canonical : Option String
  deriving DecidableEq, Repr

/-- The `gconfig` dictionary `import_geolevel` hands to `import_shape`. -/
structure ShapeCfg where
  geolevel : String
  name_field : String
  supplemental_field : Option String
  subject_fields : List SubjectFieldCfg
  deriving DecidableEq, Repr

/-- A shapefile feature: its geometry, its attribute table, and its feature
id used in failure messages. -/
structure Feature where
  fid : Nat
  geom : RawGeom
  attrs : List (String × String)
  deriving DecidableEq, Repr

/-- Exceptions that escape `import_shape` (no handler catches them, so
the run abandons this and any following geolevel). -/
inductive ImpFatal : Type
  | missingGeolevelRow (name : String)
  | missingSubjectRow (name : String)
  | missingTargetCfg (id : String)
  | missingSubjectCfg (id : String)
  | charFailure (fid : Nat) (attr : String)
  deriving DecidableEq, Repr

/-- Build one subject-field entry of `import_geolevel`: dereference the
`LegislativeTarget`'s target and subject; on `aliasfor`, look up and attach
the canonical subject. -/
def mkSubjectField (cfg : Config) (tid : String) : Except ImpFatal SubjectFieldCfg :=
  match findTargetCfg cfg tid with
  | none => .error (.missingTargetCfg tid)
  | some tc =>
    match cfg.subjects.find? fun s => s.id == tc.subjectref with
    | none => .error (.missingSubjectCfg tc.subjectref)
    | some sc =>
      match sc.aliasfor with
      | none => .ok ⟨sc.field, sc.id, none⟩
      | some a =>
        match cfg.subjects.find? fun s => s.id == a with
        | none => .error (.missingSubjectCfg a)
        | some al => .ok ⟨sc.field, sc.id, some al.id⟩

/-- `import_geolevel`: the per-geolevel import configuration, with one
subject-field entry per `LegislativeTarget` reference nested anywhere under
the geolevel, in document order. -/
def mkShapeCfg (cfg : Config) (g : GeoLevelCfg) : Except ImpFatal ShapeCfg :=
  (((g.lbodies.map fun lb => lb.targets).flatten.map fun tr => tr.ref).mapM
      (mkSubjectField cfg)).map
    fun sfs => ⟨g.name, g.namefield, g.supplementfield, sfs⟩

/-- Update an association list at a key, Python-dict style: replace the
existing binding or append a new one. -/
def assocUpdate (l : List (String × String)) (k v : String) : List (String × String) :=
  if l.any fun p => p.1 == k then
    l.map fun p => if p.1 == k then (k, v) else p
  else l ++ [(k, v)]

/-- The subject id a field entry resolves to: the appended canonical child
when present (`foundalias`), the entry's own id otherwise. -/
def resolvedSid (sf : SubjectFieldCfg) : String :=
  sf.canonical.getD sf.sid

/-- Build `subject_objects`: for each subject-field entry in order, fetch
the Subject row (preferring the appended canonical child) and bind it to
the entry's shapefile field name, dict-style.  The dictionary is modelled
as an association list in insertion order. -/
def buildSubjObjsGo (db : DB) (acc : List (String × String)) :
    List SubjectFieldCfg → Except ImpFatal (List (String × String))
  | [] => .ok acc
  | sf :: rest =>
    match db.subjects.find? fun r => r.name == resolvedSid sf with
    | none => .error (.missingSubjectRow (resolvedSid sf))
    | some srow => buildSubjObjsGo db (assocUpdate acc sf.field srow.name) rest

/-- The `subject_objects` dictionary of `import_shape`. -/
def buildSubjObjs (db : DB) (sfs : List SubjectFieldCfg) :
    Except ImpFatal (List (String × String)) :=
  buildSubjObjsGo db [] sfs

/-- The attribute value of a feature field (`feat.get(attr)`), `none` when
the field is absent (which raises). -/
def lookupAttr (f : Feature) (a : String) : Option String :=
  (f.attrs.find? fun p => p.1 == a).map fun p => p.2

/-- The Geounit row `import_shape` builds for a feature, `none` when the
geometry block raises (unsupported or degenerate geometry, intersection
failure, missing name or supplemental field). -/
def mkGeounit (simplifyFn : List Poly → RawGeom) (scfg : ShapeCfg) (f : Feature) :
    Option GeounitRow :=
  match processGeom simplifyFn f.geom with
  | .error _ => none
  | .ok (geom, simple, center) =>
    match lookupAttr f scfg.name_field with
    | none => none
    | some nm =>
      match scfg.supplemental_field with
      | none => some ⟨nm, scfg.geolevel, none, geom, simple, center⟩
      | some sfld =>
        match lookupAttr f sfld with
        | none => none
        | some sv => some ⟨nm, scfg.geolevel, some sv, geom, simple, center⟩

/-- The import state threaded through `import_shape`: the store plus the
recorded per-feature geometry failures and the recorded zero-substituted
characteristics. -/
structure ImportState where
  db : DB
  geomFailures : List Nat
  charZeroed : List (Nat × String)
  deriving DecidableEq, Repr

/-- The quantized value for one subject-field binding of a feature (`none`
when the raw value is absent or unparseable — an uncaught exception). -/
def charValue (f : Feature) (attr : String) : Option Int :=
  (lookupAttr f attr).bind quantizeCode

/-- The characteristic loop of `import_shape` for one feature:
quantization happens outside any handler, so a `none` value aborts with an
uncaught exception; a save failure (`saveFails`) is caught and replaced by
a zero-value characteristic plus a recorded failure. -/
def processChars (saveFails : Int → Bool) (fid : Nat) (f : Feature) (gid : Nat) :
    ImportState → List (String × String) → ImportState × Option ImpFatal
  | st, [] => (st, none)
  | st, (attr, subj) :: rest =>
    match charValue f attr with
    | none => (st, some (.charFailure fid attr))
    | some v =>
      if saveFails v then
        processChars saveFails fid f gid
          { st with
            db := { st.db with characteristics := st.db.characteristics ++ [⟨subj, 0, gid⟩] }
            charZeroed := st.charZeroed ++ [(fid, attr)] }
          rest
      else
        processChars saveFails fid f gid
          { st with
            db := { st.db with characteristics := st.db.characteristics ++ [⟨subj, v, gid⟩] } }
          rest

/-- One feature of `import_shape`: run the geometry block; on failure
record it and continue; on success save the Geounit and run the
characteristic loop. -/
def processFeature (simplifyFn : List Poly → RawGeom) (saveFails : Int → Bool)
    (scfg : ShapeCfg) (subjObjs : List (String × String)) (st : ImportState)
    (f : Feature) : ImportState × Option ImpFatal :=
  match mkGeounit simplifyFn scfg f with
  | none => ({ st with geomFailures := st.geomFailures ++ [f.fid] }, none)
  | some row =>
    let gid := st.db.geounits.length
    let st1 := { st with db := { st.db with geounits := st.db.geounits ++ [row] } }
    processChars saveFails f.fid f gid st1 subjObjs

/-- `import_shape` proper: resolve the geolevel row and the subject
objects, then fold the features, stopping at the first uncaught
exception. -/
def importShape (simplifyFn : List Poly → RawGeom) (saveFails : Int → Bool)
    (scfg : ShapeCfg) (feats : List Feature) (st : ImportState) :
    ImportState × Option ImpFatal :=
  match st.db.geolevels.find? fun r => r.name == scfg.geolevel with
  | none => (st, some (.missingGeolevelRow scfg.geolevel))
  | some _ =>
    match buildSubjObjs st.db scfg.subject_fields with
    | .error e => (st, some e)
    | .ok subjObjs => foldE (processFeature simplifyFn saveFails scfg subjObjs) st feats

/-- The geolevel-import loop of `handle` (with every geolevel selected):
build each geolevel's import configuration and run `import_shape` on its
features; an uncaught exception abandons the remaining geolevels. -/
def runLevels (simplifyFn : List Poly → RawGeom) (saveFails : Int → Bool) (cfg : Config) :
    ImportState → List (GeoLevelCfg × List Feature) → ImportState × Option ImpFatal
  | st, [] => (st, none)
  | st, (g, feats) :: rest =>
    match mkShapeCfg cfg g with
    | .error e => (st, some e)
    | .ok scfg =>
      match importShape simplifyFn saveFails scfg feats st with
      | (st1, none) => runLevels simplifyFn saveFails cfg st1 rest
      | (st1, some e) => (st1, some e)

/-- Whether every configured subject field of a feature parses and
quantizes (no uncaught exception in the characteristic loop). -/
def charsOk (subjObjs : List (String × String)) (f : Feature) : Bool :=
  subjObjs.all fun p => (charValue f p.1).isSome

/-- The characteristic rows the loop persists for one feature when every
value parses: the quantized value, or zero when the save fails. -/
def charRows (saveFails : Int → Bool) (f : Feature) (gid : Nat)
    (subjObjs : List (String × String)) : List CharacteristicRow :=
  subjObjs.map fun p =>
    ⟨p.2, if saveFails ((charValue f p.1).getD 0) then 0 else (charValue f p.1).getD 0, gid⟩

/-- The recorded save failures for one feature. -/
def zeroRecs (saveFails : Int → Bool) (fid : Nat) (f : Feature)
    (subjObjs : List (String × String)) : List (Nat × String) :=
  (subjObjs.filter fun p => saveFails ((charValue f p.1).getD 0)).map fun p => (fid, p.1)

/-- Errors of either pipeline stage. -/
inductive PipeError : Type
  | prereq (e : PrereqError)
  | imp (e : ImpFatal)
  deriving DecidableEq, Repr

/-- The full pipeline the claims describe: hierarchy reconciliation
(`import_prereq`) followed by the geounit import of every geolevel, each
paired positionally with its shapefile's feature list. -/
def runPipeline (simplifyFn : List Poly → RawGeom) (saveFails : Int → Bool)
    (cfg : Config) (shapefiles : List (List Feature)) (db : DB) :
    ImportState × Option PipeError :=
  match importPrereq cfg db with
  | (db1, some e) => (⟨db1, [], []⟩, some (.prereq e))
  | (db1, none) =>
    match runLevels simplifyFn saveFails cfg ⟨db1, [], []⟩ (cfg.geolevels.zip shapefiles) with
    | (st, none) => (st, none)
    | (st, some e) => (st, some (.imp e))

/-! ## Claim C1 -/

/-- The defaults table's body column. -/
def defBodies (d : DB) : List String := d.defaults.map fun x => x.legislative_body

/-- The non-catalog tables the Hierarchy Reconciler never touches before its
final step. -/
def AuxEq (d d' : DB) : Prop :=
  d'.users = d.users ∧ d'.geounits = d.geounits ∧ d'.characteristics = d.characteristics

/-- Catalog tables only grow (row for row), and the defaults table's body
column only grows; in-place default-target updates are invisible here. -/
structure DBExt (d d' : DB) : Prop where
  bodies : ∃ e, d'.bodies = d.bodies ++ e
  subjects : ∃ e, d'.subjects = d.subjects ++ e
  targets : ∃ e, d'.targets = d.targets ++ e
  geolevels : ∃ e, d'.geolevels = d.geolevels ++ e
  levels : ∃ e, d'.levels = d.levels ++ e
  defb : ∃ e, defBodies d' = defBodies d ++ e

/-- The catalog tables, which the Geounit Importer never writes. -/
def ShapeFrame (st st' : ImportState) : Prop :=
  st'.db.bodies = st.db.bodies ∧ st'.db.subjects = st.db.subjects ∧
  st'.db.targets = st.db.targets ∧ st'.db.geolevels = st.db.geolevels ∧
  st'.db.levels = st.db.levels ∧ st'.db.defaults = st.db.defaults ∧
  st'.db.users = st.db.users

/-- The parts of the store the Geounit Importer reads: a follow-up run sees
the same Subject and Geolevel catalogs. -/
def ImpEq (u w : ImportState) : Prop :=
  w.db.subjects = u.db.subjects ∧ w.db.geolevels = u.db.geolevels

/-- Every configured body's row is present. -/
def bodyFacts (cfg : Config) (d : DB) : Prop :=
  ∀ b ∈ cfg.bodies, mkBodyRow b ∈ d.bodies

/-- Every configured non-alias subject's row is present. -/
def subjFacts (cfg : Config) (d : DB) : Prop :=
  ∀ s ∈ cfg.subjects, s.aliasfor = none → mkSubjectRow s ∈ d.subjects

/-- Every configured target resolves and its row is present. -/
def targFacts (cfg : Config) (d : DB) : Prop :=
  ∀ t ∈ cfg.targets, ∃ sc srow,
    resolveSubjectCfg cfg t.subjectref = some sc ∧
    d.subjects.find? (fun r => r.name == sc.id) = some srow ∧
    (⟨srow.name, t.value, t.range1, t.range2⟩ : TargetRow) ∈ d.targets

/-- One legislative-target reference fully resolves against `d` and its
level row is present. -/
def legTargFact (cfg : Config) (d : DB) (brow : LegislativeBodyRow) (gname : String)
    (lb : LBodyRef) (tr : LegTargetRef) : Prop :=
  ∃ tc sc srow trow pk,
    findTargetCfg cfg tr.ref = some tc ∧
    resolveSubjectCfg cfg tc.subjectref = some sc ∧
    d.subjects.find? (fun r => r.name == sc.id) = some srow ∧
    d.targets.find? (fun r => r.subject == srow.name && r.value == tc.value &&
      r.range1 == tc.range1 && r.range2 == tc.range2) = some trow ∧
    resolveParent cfg d brow.name trow lb.parent = .ok pk ∧
    (⟨brow.name, gname, trow, pk⟩ : LegislativeLevelRow) ∈ d.levels ∧
    (tr.default.isSome = true → brow.name ∈ defBodies d)

/-- Every configured geolevel, nested body reference and legislative target
resolves against `d`. -/
def glvlFacts (cfg : Config) (d : DB) : Prop :=
  ∀ g ∈ cfg.geolevels, mkGlvlRow g ∈ d.geolevels ∧
    ∀ lb ∈ g.lbodies, ∃ bc brow,
      cfg.bodies.find? (fun b => b.id == lb.ref) = some bc ∧
      d.bodies.find? (fun r => r.name == bc.name) = some brow ∧
      ∀ tr ∈ lb.targets, legTargFact cfg d brow g.name lb tr

/-- Everything a second reconciliation run needs to find. -/
def PrereqFacts (cfg : Config) (d : DB) : Prop :=
  bodyFacts cfg d ∧ subjFacts cfg d ∧ targFacts cfg d ∧ glvlFacts cfg d

/-- The second run's store agrees with the first run's final store on every
catalog table; the defaults table may differ in its target column only. -/
def ReplayEq (d0 d : DB) : Prop :=
  d.bodies = d0.bodies ∧ d.subjects = d0.subjects ∧ d.targets = d0.targets ∧
  d.geolevels = d0.geolevels ∧ d.levels = d0.levels ∧ defBodies d = defBodies d0

/-- The unit square, counterclockwise. -/
def unitSquare : Poly := [⟨0, 0⟩, ⟨1, 0⟩, ⟨1, 1⟩, ⟨0, 1⟩]

/-- A save that never fails (the characteristic save succeeds whenever the
value parsed). -/
def noSaveFailure : Int → Bool := fun _ => false

/-- The identity simplifier: simplification that returns the multipolygon
unchanged (any concrete GEOS simplifier instantiates this argument). -/
def simplifyId : List Poly → RawGeom := fun rs => RawGeom.multi rs

/-- A configuration with a single geolevel and no subjects. -/
def cfgOneLevel : Config :=
  ⟨[], [], [], [⟨"g1", "county", "1", "1", "f.shp", "NAME", none, []⟩]⟩

/-- One well-behaved square feature. -/
def featSquare : Feature := ⟨0, .poly unitSquare, [("NAME", "u1")]⟩

/-- A configuration with one body, one subject read from field `POP`, one
target, and one geolevel wired to them. -/
def cfgOneSubject : Config :=
  ⟨[⟨"b1", "house", "H", "10"⟩],
   [⟨"s1", "Pop", "P", "true", "1", none, "POP"⟩],
   [⟨"t1", "s1", "0", "", ""⟩],
   [⟨"g1", "county", "1", "1", "f.shp", "NAME", none, [⟨"b1", [⟨"t1", none⟩], none⟩]⟩]⟩

/-- A feature whose `POP` attribute does not parse as a decimal. -/
def featBadPop : Feature := ⟨0, .poly unitSquare, [("NAME", "u1"), ("POP", "abc")]⟩

/-- The first member polygon of the C4 counterexample: the union of the bar
`[0,4] x [-1,0]` and the block `[3,4] x [0,2]`, balanced so that its
centroid `(5/2, 0)` lies on its own horizontal boundary edge. -/
def polyShelf : Poly := [⟨0, -1⟩, ⟨4, -1⟩, ⟨4, 2⟩, ⟨3, 2⟩, ⟨3, 0⟩, ⟨0, 0⟩]

/-- A far-away unit square dragging the multipolygon centroid outside. -/
def polyFar : Poly := [⟨100, 100⟩, ⟨101, 100⟩, ⟨101, 101⟩, ⟨100, 101⟩]

/-- The C4 counterexample multipolygon. -/
def mpShelf : List Poly := [polyShelf, polyFar]

/-- The intersection segments the repairer computes for `polyShelf`. -/
def sliceShelf : List (Pt × Pt) :=
  sliceAt (polyCentroid polyShelf).y (minX polyShelf) (maxX polyShelf) polyShelf

/-- The first intersection part, whose midpoint becomes the repaired
centroid. -/
def segShelf : Pt × Pt := sliceShelf.headD (⟨0, 0⟩, ⟨0, 0⟩)

/-- The import state after reconciling the one-geolevel configuration into
the empty store. -/
def stOneLevel : ImportState := ⟨(importPrereq cfgOneLevel dbEmpty).1, [], []⟩

/-- The import configuration `import_geolevel` builds for the one-geolevel
configuration. -/
def scfgOneLevel : ShapeCfg := ⟨"county", "NAME", none, []⟩

/-- The empty import state. -/
def stEmptyC3 : ImportState := ⟨dbEmpty, [], []⟩

/-- The Geounit row built for `featBadPop` (its geometry block succeeds). -/
def rowBadPop : GeounitRow :=
  (mkGeounit simplifyId scfgOneLevel featBadPop).getD ⟨"", "", none, [], [], ⟨0, 0⟩⟩

/-- Five features, of which feature 3 has an unsupported geometry. -/
def featsFive : List Feature :=
  [⟨1, .poly unitSquare, [("NAME", "a")]⟩,
   ⟨2, .poly unitSquare, [("NAME", "b")]⟩,
   ⟨3, .other, [("NAME", "c")]⟩,
   ⟨4, .poly unitSquare, [("NAME", "d")]⟩,
   ⟨5, .poly unitSquare, [("NAME", "e")]⟩]

/-- A configuration whose first geolevel names the (later-declared) second
geolevel as its parent. -/
def cfgC6 : Config :=
  ⟨[⟨"b1", "house", "H", "10"⟩],
   [⟨"s1", "Pop", "P", "true", "1", none, "POP"⟩],
   [⟨"t1", "s1", "0", "", ""⟩],
   [⟨"g1", "county", "1", "1", "f.shp", "NAME", none, [⟨"b1", [⟨"t1", none⟩], some "g2"⟩]⟩,
    ⟨"g2", "state", "1", "2", "g.shp", "NAME", none, []⟩]⟩

/-- A store holding the body, subject and target rows of `cfgC6` but no
legislative levels yet. -/
def dbC6 : DB :=
  ⟨[⟨"house", "H", "10"⟩], [⟨"s1", "Pop", "P", true, "1"⟩], [⟨"s1", "0", "", ""⟩],
   [], [], [], [], [], []⟩

/-- A well-ordered two-geolevel configuration with an alias subject and a
default target, for exercising reconciliation twice. -/
def cfgC8 : Config :=
  ⟨[⟨"b1", "house", "H", "10"⟩],
   [⟨"s1", "Pop", "P", "true", "1", none, "POP"⟩,
    ⟨"s2", "Pop2", "P2", "false", "2", some "s1", "POP2"⟩],
   [⟨"t1", "s2", "0", "", ""⟩],
   [⟨"g2", "state", "1", "2", "g.shp", "NAME", none, [⟨"b1", [⟨"t1", some "yes"⟩], none⟩]⟩,
    ⟨"g1", "county", "1", "1", "f.shp", "NAME", none, [⟨"b1", [⟨"t1", none⟩], some "g2"⟩]⟩]⟩

/-- The alias subject entry of `cfgC8` (`s2`, declared `aliasfor="s1"`). -/
def sC7 : SubjectCfg := ⟨"s2", "Pop2", "P2", "false", "2", some "s1", "POP2"⟩

/-- The canonical subject entry of `cfgC8` (`s1`). -/
def saC7 : SubjectCfg := ⟨"s1", "Pop", "P", "true", "1", none, "POP"⟩

/-- The target of `cfgC8`, whose `subjectref` names the alias. -/
def tC7 : TargetCfg := ⟨"t1", "s2", "0", "", ""⟩

/-- A store already holding the canonical Subject row. -/
def dbC7 : DB := { dbEmpty with subjects := [⟨"s1", "Pop", "P", true, "1"⟩] }

/-! ## Claim C9 -/

/-! ## Theorems -/

theorem append_nil_eq {ρ : Type} {a b : List ρ} (h : a = b) : a = b ++ [] := by
  rw [List.append_nil]
  exact h

theorem gocList_eq_of_mem {ρ : Type} [DecidableEq ρ] {l : List ρ} {r : ρ}
    (h : r ∈ l) : gocList l r = l := by
  simp [gocList, h]

theorem gocList_self_mem {ρ : Type} [DecidableEq ρ] (l : List ρ) (r : ρ) :
    r ∈ gocList l r := by
  unfold gocList
  split
  · assumption
  · simp

theorem gocList_mem_of_mem {ρ : Type} [DecidableEq ρ] {l : List ρ} {a : ρ} (r : ρ)
    (h : a ∈ l) : a ∈ gocList l r := by
  unfold gocList
  split
  · exact h
  · exact List.mem_append_left _ h

theorem gocList_append {ρ : Type} [DecidableEq ρ] (l : List ρ) (r : ρ) :
    ∃ e, gocList l r = l ++ e := by
  unfold gocList
  split
  · exact ⟨[], append_nil_eq rfl⟩
  · exact ⟨[r], rfl⟩

theorem find?_append_of_some {ρ : Type} {p : ρ → Bool} {l : List ρ} {x : ρ}
    (h : l.find? p = some x) (e : List ρ) : (l ++ e).find? p = some x := by
  induction l with
  | nil => simp at h
  | cons a as ih =>
    by_cases hp : p a
    · simp [List.find?, hp] at h ⊢
      exact h
    · simp only [List.find?, hp] at h
      simpa [List.find?, hp] using ih h

/-- Folding `gocList` over a list of rows that are all already present leaves
the table unchanged. -/
theorem foldl_goc_id {ρ : Type} [DecidableEq ρ] {l : List ρ} {rs : List ρ}
    (h : ∀ r ∈ rs, r ∈ l) : rs.foldl gocList l = l := by
  induction rs with
  | nil => rfl
  | cons a as ih =>
    have ha : a ∈ l := h a (by simp)
    simp only [List.foldl, gocList_eq_of_mem ha]
    exact ih fun r hr => h r (by simp [hr])

theorem foldl_goc_mem {ρ : Type} [DecidableEq ρ] {l : List ρ} {rs : List ρ}
    {a : ρ} (h : a ∈ l) : a ∈ rs.foldl gocList l := by
  induction rs generalizing l with
  | nil => exact h
  | cons b bs ih => exact ih (gocList_mem_of_mem b h)

theorem foldl_goc_mem_self {ρ : Type} [DecidableEq ρ] {rs : List ρ} {a : ρ}
    (h : a ∈ rs) : ∀ l : List ρ, a ∈ rs.foldl gocList l := by
  induction rs with
  | nil => simp at h
  | cons b bs ih =>
    intro l
    rw [List.foldl_cons]
    rcases List.mem_cons.1 h with h | h
    · subst h
      exact foldl_goc_mem (gocList_self_mem l a)
    · exact ih h (gocList l b)

theorem foldl_goc_append {ρ : Type} [DecidableEq ρ] (rs : List ρ) :
    ∀ l : List ρ, ∃ e, rs.foldl gocList l = l ++ e := by
  induction rs with
  | nil => exact fun l => ⟨[], append_nil_eq rfl⟩
  | cons a as ih =>
    intro l
    obtain ⟨e1, he1⟩ := gocList_append l a
    obtain ⟨e2, he2⟩ := ih (gocList l a)
    refine ⟨e1 ++ e2, ?_⟩
    rw [List.foldl_cons, he2, he1, List.append_assoc]

/-! ## The Characteristic Quantizer

`import_shape` computes, for each subject field,

  `Decimal(str(feat.get(attr))).quantize(Decimal('000000.0000', 'ROUND_DOWN'))`.

The second argument of the `Decimal` constructor is a *context* object; a
string that parses cleanly never consults it, so the `'ROUND_DOWN'` literal
is silently ignored and `quantize` falls back to the default context
rounding, `ROUND_HALF_EVEN`.  Values are modelled as integers scaled by
`10 ^ 4` (the exponent of `'000000.0000'`). -/

/-- C1: the claim states that the Characteristic Quantizer truncates toward
zero, so that `"1.23456"` quantizes to `1.2345` and never `1.2346` — and
the `'ROUND_DOWN'` literal in the source shows that truncation was indeed
the intent.  But the code passes `'ROUND_DOWN'` as the `Decimal`
constructor's ignored context argument rather than as `quantize`'s rounding
argument, so the code quantizes `"1.23456"` with the default
`ROUND_HALF_EVEN` to `1.2346` (scaled: `12346`), while truncation as
specified yields `1.2345` (scaled: `12345`). -/
theorem C1_quantize_rounds_not_truncates :
    quantizeCode "1.23456" = some 12346 ∧
    quantizeTrunc "1.23456" = some 12345 ∧
    quantizeCode "1.23456" ≠ quantizeTrunc "1.23456" := by
  refine ⟨by decide, by decide, by decide⟩

/-! ## Structural lemmas: frames and monotonicity -/

theorem foldE_rel {σ α ε : Type} (f : σ → α → σ × Option ε) (P : σ → σ → Prop)
    (htrans : ∀ a b c, P a b → P b c → P a c) (hrefl : ∀ s, P s s)
    (hstep : ∀ s a, P s (f s a).1) :
    ∀ (l : List α) (s : σ), P s (foldE f s l).1 := by
  intro l
  induction l with
  | nil => intro s; exact hrefl s
  | cons a as ih =>
    intro s
    have hs := hstep s a
    simp only [foldE]
    cases hfa : f s a with
    | mk s' e =>
      rw [hfa] at hs
      cases e with
      | none => exact htrans _ _ _ hs (ih s')
      | some e => exact hs

/-- A run of `foldE` that ends without error ran every step without
error. -/
theorem foldE_none_split {σ α ε : Type} {f : σ → α → σ × Option ε} {s : σ}
    {a : α} {l : List α} (h : (foldE f s (a :: l)).2 = none) :
    (f s a).2 = none ∧ (foldE f (f s a).1 l).2 = none := by
  simp only [foldE] at h
  cases hfa : f s a with
  | mk s' e =>
    rw [hfa] at h
    cases e with
    | none => exact ⟨rfl, h⟩
    | some e => simp at h

theorem auxEq_refl (d : DB) : AuxEq d d := ⟨rfl, rfl, rfl⟩

theorem auxEq_trans {a b c : DB} (h1 : AuxEq a b) (h2 : AuxEq b c) : AuxEq a c :=
  ⟨h2.1.trans h1.1, h2.2.1.trans h1.2.1, h2.2.2.trans h1.2.2⟩

theorem dbExt_refl (d : DB) : DBExt d d :=
  ⟨⟨[], append_nil_eq rfl⟩, ⟨[], append_nil_eq rfl⟩, ⟨[], append_nil_eq rfl⟩, ⟨[], append_nil_eq rfl⟩, ⟨[], append_nil_eq rfl⟩, ⟨[], append_nil_eq rfl⟩⟩

theorem exists_append_trans {ρ : Type} {a b c : List ρ}
    (h1 : ∃ e, b = a ++ e) (h2 : ∃ e, c = b ++ e) : ∃ e, c = a ++ e := by
  obtain ⟨e1, he1⟩ := h1
  obtain ⟨e2, he2⟩ := h2
  exact ⟨e1 ++ e2, by rw [he2, he1, List.append_assoc]⟩

theorem dbExt_trans {a b c : DB} (h1 : DBExt a b) (h2 : DBExt b c) : DBExt a c :=
  ⟨exists_append_trans h1.bodies h2.bodies,
   exists_append_trans h1.subjects h2.subjects,
   exists_append_trans h1.targets h2.targets,
   exists_append_trans h1.geolevels h2.geolevels,
   exists_append_trans h1.levels h2.levels,
   exists_append_trans h1.defb h2.defb⟩

theorem mem_of_exists_append {ρ : Type} {a b : List ρ} {x : ρ}
    (h : ∃ e, b = a ++ e) (hx : x ∈ a) : x ∈ b := by
  obtain ⟨e, he⟩ := h
  rw [he]
  exact List.mem_append_left _ hx

theorem find?_stable {ρ : Type} {p : ρ → Bool} {a b : List ρ} {x : ρ}
    (h : ∃ e, b = a ++ e) (hx : a.find? p = some x) : b.find? p = some x := by
  obtain ⟨e, he⟩ := h
  rw [he]
  exact find?_append_of_some hx e

/-! ### Per-step frame lemmas -/

theorem importBodies_aux (cfg : Config) (db : DB) : AuxEq db (importBodies cfg db) :=
  ⟨rfl, rfl, rfl⟩

theorem importSubjects_aux (cfg : Config) (db : DB) : AuxEq db (importSubjects cfg db) :=
  ⟨rfl, rfl, rfl⟩

theorem processTarget_aux (cfg : Config) (db : DB) (t : TargetCfg) :
    AuxEq db (processTarget cfg db t).1 := by
  unfold processTarget
  repeat' split
  all_goals exact ⟨rfl, rfl, rfl⟩

theorem setDefault_aux (db : DB) (b : String) (t : TargetRow) :
    AuxEq db (setDefault db b t) := ⟨rfl, rfl, rfl⟩

theorem finishLegTarget_aux (cfg : Config) (brow : LegislativeBodyRow)
    (grow : GeolevelRow) (lb : LBodyRef) (db : DB) (trow : TargetRow) :
    AuxEq db (finishLegTarget cfg brow grow lb db trow).1 := by
  unfold finishLegTarget
  repeat' split
  all_goals exact ⟨rfl, rfl, rfl⟩

theorem processLegTarget_aux (cfg : Config) (brow : LegislativeBodyRow)
    (grow : GeolevelRow) (lb : LBodyRef) (db : DB) (tr : LegTargetRef) :
    AuxEq db (processLegTarget cfg brow grow lb db tr).1 := by
  unfold processLegTarget
  repeat' split
  all_goals first
    | exact auxEq_trans (setDefault_aux db brow.name _) (finishLegTarget_aux cfg brow grow lb _ _)
    | exact finishLegTarget_aux cfg brow grow lb _ _
    | exact ⟨rfl, rfl, rfl⟩

theorem processLBody_aux (cfg : Config) (grow : GeolevelRow) (db : DB) (lb : LBodyRef) :
    AuxEq db (processLBody cfg grow db lb).1 := by
  unfold processLBody
  repeat' split
  · exact auxEq_refl db
  · exact auxEq_refl db
  · exact foldE_rel _ AuxEq (fun a b c => fun h1 h2 => auxEq_trans h1 h2) auxEq_refl
      (fun s a => processLegTarget_aux cfg _ grow lb s a) lb.targets db

theorem processGeoLevel_aux (cfg : Config) (db : DB) (g : GeoLevelCfg) :
    AuxEq db (processGeoLevel cfg db g).1 := by
  unfold processGeoLevel
  exact auxEq_trans (⟨rfl, rfl, rfl⟩ : AuxEq db _)
    (foldE_rel _ AuxEq (fun a b c => fun h1 h2 => auxEq_trans h1 h2) auxEq_refl
      (fun s a => processLBody_aux cfg (mkGlvlRow g) s a) g.lbodies _)

theorem importBodies_ext (cfg : Config) (db : DB) : DBExt db (importBodies cfg db) := by
  refine ⟨?_, ⟨[], append_nil_eq rfl⟩, ⟨[], append_nil_eq rfl⟩, ⟨[], append_nil_eq rfl⟩, ⟨[], append_nil_eq rfl⟩, ⟨[], append_nil_eq rfl⟩⟩
  exact foldl_goc_append _ db.bodies

theorem importSubjects_ext (cfg : Config) (db : DB) : DBExt db (importSubjects cfg db) := by
  refine ⟨⟨[], append_nil_eq rfl⟩, ?_, ⟨[], append_nil_eq rfl⟩, ⟨[], append_nil_eq rfl⟩, ⟨[], append_nil_eq rfl⟩, ⟨[], append_nil_eq rfl⟩⟩
  exact foldl_goc_append _ db.subjects

theorem processTarget_ext (cfg : Config) (db : DB) (t : TargetCfg) :
    DBExt db (processTarget cfg db t).1 := by
  unfold processTarget
  repeat' split
  · exact dbExt_refl db
  · exact dbExt_refl db
  · exact ⟨⟨[], append_nil_eq rfl⟩, ⟨[], append_nil_eq rfl⟩, gocList_append _ _, ⟨[], append_nil_eq rfl⟩, ⟨[], append_nil_eq rfl⟩, ⟨[], append_nil_eq rfl⟩⟩

theorem setDefault_defb (db : DB) (b : String) (t : TargetRow) :
    ∃ e, defBodies (setDefault db b t) = defBodies db ++ e := by
  unfold setDefault defBodies
  split
  · refine ⟨[], ?_⟩
    simp only [List.map_map, List.append_nil]
    apply List.map_congr_left
    intro d _
    simp only [Function.comp]
    split <;> rfl
  · exact ⟨[b], by simp⟩

theorem setDefault_ext (db : DB) (b : String) (t : TargetRow) :
    DBExt db (setDefault db b t) :=
  ⟨⟨[], append_nil_eq rfl⟩, ⟨[], append_nil_eq rfl⟩, ⟨[], append_nil_eq rfl⟩, ⟨[], append_nil_eq rfl⟩, ⟨[], append_nil_eq rfl⟩, setDefault_defb db b t⟩

theorem finishLegTarget_ext (cfg : Config) (brow : LegislativeBodyRow)
    (grow : GeolevelRow) (lb : LBodyRef) (db : DB) (trow : TargetRow) :
    DBExt db (finishLegTarget cfg brow grow lb db trow).1 := by
  unfold finishLegTarget
  repeat' split
  · exact dbExt_refl db
  · exact ⟨⟨[], append_nil_eq rfl⟩, ⟨[], append_nil_eq rfl⟩, ⟨[], append_nil_eq rfl⟩, ⟨[], append_nil_eq rfl⟩, gocList_append _ _, ⟨[], append_nil_eq rfl⟩⟩

theorem processLegTarget_ext (cfg : Config) (brow : LegislativeBodyRow)
    (grow : GeolevelRow) (lb : LBodyRef) (db : DB) (tr : LegTargetRef) :
    DBExt db (processLegTarget cfg brow grow lb db tr).1 := by
  unfold processLegTarget
  repeat' split
  all_goals first
    | exact dbExt_trans (setDefault_ext db brow.name _) (finishLegTarget_ext cfg brow grow lb _ _)
    | exact finishLegTarget_ext cfg brow grow lb _ _
    | exact dbExt_refl db

theorem processLBody_ext (cfg : Config) (grow : GeolevelRow) (db : DB) (lb : LBodyRef) :
    DBExt db (processLBody cfg grow db lb).1 := by
  unfold processLBody
  repeat' split
  · exact dbExt_refl db
  · exact dbExt_refl db
  · exact foldE_rel _ DBExt (fun a b c => dbExt_trans) dbExt_refl
      (fun s a => processLegTarget_ext cfg _ grow lb s a) lb.targets db

theorem processGeoLevel_ext (cfg : Config) (db : DB) (g : GeoLevelCfg) :
    DBExt db (processGeoLevel cfg db g).1 := by
  unfold processGeoLevel
  refine dbExt_trans
    (⟨⟨[], append_nil_eq rfl⟩, ⟨[], append_nil_eq rfl⟩, ⟨[], append_nil_eq rfl⟩,
        gocList_append _ _, ⟨[], append_nil_eq rfl⟩, ⟨[], append_nil_eq rfl⟩⟩ :
      DBExt db { db with geolevels := gocList db.geolevels (mkGlvlRow g) }) ?_
  exact foldE_rel _ DBExt (fun a b c => dbExt_trans) dbExt_refl
    (fun s a => processLBody_ext cfg (mkGlvlRow g) s a) g.lbodies _

theorem importAnon_ext (db : DB) : DBExt db (importAnon db) := by
  unfold importAnon
  split
  · exact ⟨⟨[], append_nil_eq rfl⟩, ⟨[], append_nil_eq rfl⟩, ⟨[], append_nil_eq rfl⟩, ⟨[], append_nil_eq rfl⟩, ⟨[], append_nil_eq rfl⟩, ⟨[], append_nil_eq rfl⟩⟩
  · exact ⟨⟨[], append_nil_eq rfl⟩, ⟨[], append_nil_eq rfl⟩, ⟨[], append_nil_eq rfl⟩, ⟨[], append_nil_eq rfl⟩, ⟨[], append_nil_eq rfl⟩, ⟨[], append_nil_eq rfl⟩⟩

/-! ### Geounit importer lemmas -/

theorem shapeFrame_refl (st : ImportState) : ShapeFrame st st :=
  ⟨rfl, rfl, rfl, rfl, rfl, rfl, rfl⟩

theorem shapeFrame_trans {a b c : ImportState} (h1 : ShapeFrame a b) (h2 : ShapeFrame b c) :
    ShapeFrame a c :=
  ⟨h2.1.trans h1.1, h2.2.1.trans h1.2.1, h2.2.2.1.trans h1.2.2.1,
   h2.2.2.2.1.trans h1.2.2.2.1, h2.2.2.2.2.1.trans h1.2.2.2.2.1,
   h2.2.2.2.2.2.1.trans h1.2.2.2.2.2.1, h2.2.2.2.2.2.2.trans h1.2.2.2.2.2.2⟩

theorem processChars_cons (saveFails : Int → Bool) (fid : Nat) (f : Feature) (gid : Nat)
    (st : ImportState) (p : String × String) (rest : List (String × String)) :
    processChars saveFails fid f gid st (p :: rest) =
      match charValue f p.1 with
      | none => (st, some (.charFailure fid p.1))
      | some v =>
        if saveFails v then
          processChars saveFails fid f gid
            { st with
              db := { st.db with
                characteristics := st.db.characteristics ++ [⟨p.2, 0, gid⟩] }
              charZeroed := st.charZeroed ++ [(fid, p.1)] } rest
        else
          processChars saveFails fid f gid
            { st with
              db := { st.db with
                characteristics := st.db.characteristics ++ [⟨p.2, v, gid⟩] } } rest := by
  rfl

theorem processChars_pres (saveFails : Int → Bool) (fid : Nat) (f : Feature) (gid : Nat) :
    ∀ (l : List (String × String)) (st : ImportState),
      ShapeFrame st (processChars saveFails fid f gid st l).1 ∧
      (processChars saveFails fid f gid st l).1.db.geounits = st.db.geounits ∧
      (processChars saveFails fid f gid st l).1.geomFailures = st.geomFailures := by
  intro l
  induction l with
  | nil => intro st; exact ⟨shapeFrame_refl st, rfl, rfl⟩
  | cons p rest ih =>
    intro st
    rw [processChars_cons]
    cases hv : charValue f p.1 with
    | none => exact ⟨shapeFrame_refl st, rfl, rfl⟩
    | some v =>
      dsimp only
      by_cases hsf : saveFails v = true
      · rw [if_pos hsf]
        have key := ih { st with
          db := { st.db with
            characteristics := st.db.characteristics ++ [⟨p.2, 0, gid⟩] }
          charZeroed := st.charZeroed ++ [(fid, p.1)] }
        exact ⟨shapeFrame_trans ⟨rfl, rfl, rfl, rfl, rfl, rfl, rfl⟩ key.1, key.2.1, key.2.2⟩
      · rw [if_neg hsf]
        have key := ih { st with
          db := { st.db with
            characteristics := st.db.characteristics ++ [⟨p.2, v, gid⟩] } }
        exact ⟨shapeFrame_trans ⟨rfl, rfl, rfl, rfl, rfl, rfl, rfl⟩ key.1, key.2.1, key.2.2⟩

theorem processChars_ok (saveFails : Int → Bool) (fid : Nat) (f : Feature) (gid : Nat) :
    ∀ (l : List (String × String)) (st : ImportState),
      (∀ p ∈ l, (charValue f p.1).isSome = true) →
      (processChars saveFails fid f gid st l).2 = none ∧
      (processChars saveFails fid f gid st l).1.db.characteristics =
        st.db.characteristics ++ charRows saveFails f gid l ∧
      (processChars saveFails fid f gid st l).1.charZeroed =
        st.charZeroed ++ zeroRecs saveFails fid f l := by
  intro l
  induction l with
  | nil => intro st _; exact ⟨rfl, by simp [processChars, charRows], by simp [processChars, zeroRecs]⟩
  | cons p rest ih =>
    intro st hall
    obtain ⟨v, hv⟩ := Option.isSome_iff_exists.1 (hall p (by simp))
    have hrest : ∀ q ∈ rest, (charValue f q.1).isSome = true :=
      fun q hq => hall q (by simp [hq])
    have hgetD : (charValue f p.1).getD 0 = v := by rw [hv]; rfl
    rw [processChars_cons]
    simp only [hv]
    by_cases hsf : saveFails v = true
    · rw [if_pos hsf]
      have key := ih { st with
        db := { st.db with
          characteristics := st.db.characteristics ++ [⟨p.2, 0, gid⟩] }
        charZeroed := st.charZeroed ++ [(fid, p.1)] } hrest
      refine ⟨key.1, ?_, ?_⟩
      · rw [key.2.1]
        simp only [charRows, List.map_cons, hgetD, hsf, if_true]
        simp [List.append_assoc]
      · rw [key.2.2]
        simp only [zeroRecs, List.filter_cons, hgetD, hsf, List.map_cons]
        simp [List.append_assoc]
    · rw [if_neg hsf]
      have key := ih { st with
        db := { st.db with
          characteristics := st.db.characteristics ++ [⟨p.2, v, gid⟩] } } hrest
      refine ⟨key.1, ?_, ?_⟩
      · rw [key.2.1]
        simp only [charRows, List.map_cons, hgetD, hsf, if_false]
        simp [List.append_assoc]
      · rw [key.2.2]
        simp only [zeroRecs, List.filter_cons, hgetD, hsf]
        simp

theorem processChars_none_imp (saveFails : Int → Bool) (fid : Nat) (f : Feature) (gid : Nat) :
    ∀ (l : List (String × String)) (st : ImportState),
      (processChars saveFails fid f gid st l).2 = none →
      ∀ p ∈ l, (charValue f p.1).isSome = true := by
  intro l
  induction l with
  | nil => intro st _ p hp; simp at hp
  | cons q rest ih =>
    intro st h p hp
    rw [processChars_cons] at h
    cases hv : charValue f q.1 with
    | none => rw [hv] at h; simp at h
    | some v =>
      simp only [hv] at h
      rcases List.mem_cons.1 hp with hp | hp
      · subst hp
        simp [hv]
      · by_cases hsf : saveFails v = true
        · rw [if_pos hsf] at h
          exact ih _ h p hp
        · rw [if_neg hsf] at h
          exact ih _ h p hp

theorem processChars_err (saveFails : Int → Bool) (fid : Nat) (f : Feature) (gid : Nat)
    (a s : String) (post : List (String × String)) (ha : charValue f a = none) :
    ∀ (pre : List (String × String)) (st : ImportState),
      (∀ p ∈ pre, (charValue f p.1).isSome = true) →
      (processChars saveFails fid f gid st (pre ++ (a, s) :: post)).2 =
        some (.charFailure fid a) ∧
      (processChars saveFails fid f gid st (pre ++ (a, s) :: post)).1.db.characteristics =
        st.db.characteristics ++ charRows saveFails f gid pre ∧
      (processChars saveFails fid f gid st (pre ++ (a, s) :: post)).1.db.geounits =
        st.db.geounits := by
  intro pre
  induction pre with
  | nil =>
    intro st _
    rw [List.nil_append, processChars_cons]
    simp [ha, charRows]
  | cons p rest ih =>
    intro st hall
    obtain ⟨v, hv⟩ := Option.isSome_iff_exists.1 (hall p (by simp))
    have hrest : ∀ q ∈ rest, (charValue f q.1).isSome = true :=
      fun q hq => hall q (by simp [hq])
    have hgetD : (charValue f p.1).getD 0 = v := by rw [hv]; rfl
    rw [List.cons_append, processChars_cons]
    simp only [hv]
    by_cases hsf : saveFails v = true
    · rw [if_pos hsf]
      have key := ih { st with
        db := { st.db with
          characteristics := st.db.characteristics ++ [⟨p.2, 0, gid⟩] }
        charZeroed := st.charZeroed ++ [(fid, p.1)] } hrest
      refine ⟨key.1, ?_, key.2.2⟩
      rw [key.2.1]
      simp only [charRows, List.map_cons, hgetD, hsf, if_true]
      simp [List.append_assoc]
    · rw [if_neg hsf]
      have key := ih { st with
        db := { st.db with
          characteristics := st.db.characteristics ++ [⟨p.2, v, gid⟩] } } hrest
      refine ⟨key.1, ?_, key.2.2⟩
      rw [key.2.1]
      simp only [charRows, List.map_cons, hgetD, hsf, if_false]
      simp [List.append_assoc]

theorem foldE_cons {σ α ε : Type} (f : σ → α → σ × Option ε) (s : σ) (a : α)
    (l : List α) :
    foldE f s (a :: l) =
      match f s a with
      | (s', none) => foldE f s' l
      | (s', some e) => (s', some e) := by
  rfl

theorem processFeature_fail {simplifyFn : List Poly → RawGeom} {saveFails : Int → Bool}
    {scfg : ShapeCfg} {subjObjs : List (String × String)} {st : ImportState} {f : Feature}
    (hrow : mkGeounit simplifyFn scfg f = none) :
    processFeature simplifyFn saveFails scfg subjObjs st f =
      ({ st with geomFailures := st.geomFailures ++ [f.fid] }, none) := by
  unfold processFeature
  rw [hrow]

theorem processFeature_okEq {simplifyFn : List Poly → RawGeom} {saveFails : Int → Bool}
    {scfg : ShapeCfg} {subjObjs : List (String × String)} {st : ImportState} {f : Feature}
    {row : GeounitRow} (hrow : mkGeounit simplifyFn scfg f = some row) :
    processFeature simplifyFn saveFails scfg subjObjs st f =
      processChars saveFails f.fid f st.db.geounits.length
        { st with db := { st.db with geounits := st.db.geounits ++ [row] } } subjObjs := by
  unfold processFeature
  rw [hrow]

/-- The Geounit Importer's feature fold, when every feature whose geometry
block succeeds also has parseable attribute values: no uncaught exception;
one Geounit appended per geometry success; one recorded geometry failure,
in order, per geometry failure; and the catalog tables untouched. -/
theorem importShapeGo_spec (simplifyFn : List Poly → RawGeom) (saveFails : Int → Bool)
    (scfg : ShapeCfg) (subjObjs : List (String × String)) :
    ∀ (feats : List Feature) (st : ImportState),
      (∀ f ∈ feats, (mkGeounit simplifyFn scfg f).isSome = true → charsOk subjObjs f = true) →
      (foldE (processFeature simplifyFn saveFails scfg subjObjs) st feats).2 = none ∧
      (foldE (processFeature simplifyFn saveFails scfg subjObjs) st feats).1.db.geounits.length =
        st.db.geounits.length +
          (feats.filter fun f => (mkGeounit simplifyFn scfg f).isSome).length ∧
      (foldE (processFeature simplifyFn saveFails scfg subjObjs) st feats).1.geomFailures =
        st.geomFailures ++
          ((feats.filter fun f => !(mkGeounit simplifyFn scfg f).isSome).map fun f => f.fid) ∧
      ShapeFrame st (foldE (processFeature simplifyFn saveFails scfg subjObjs) st feats).1 := by
  intro feats
  induction feats with
  | nil => intro st _; exact ⟨rfl, by simp [foldE], by simp [foldE], shapeFrame_refl st⟩
  | cons f fs ih =>
    intro st hall
    have hfs : ∀ g ∈ fs, (mkGeounit simplifyFn scfg g).isSome = true → charsOk subjObjs g = true :=
      fun g hg => hall g (by simp [hg])
    rw [foldE_cons]
    cases hrow : mkGeounit simplifyFn scfg f with
    | none =>
      rw [processFeature_fail hrow]
      dsimp only
      have key := ih { st with geomFailures := st.geomFailures ++ [f.fid] } hfs
      refine ⟨key.1, ?_, ?_, key.2.2.2⟩
      · rw [key.2.1]
        simp [List.filter_cons, hrow]
      · rw [key.2.2.1]
        simp [List.filter_cons, hrow]
    | some row =>
      have hchars : charsOk subjObjs f = true := hall f (by simp) (by simp [hrow])
      have hallp : ∀ p ∈ subjObjs, (charValue f p.1).isSome = true := by
        intro p hp
        exact List.all_eq_true.1 hchars p hp
      rw [processFeature_okEq hrow]
      have hpcOk := processChars_ok saveFails f.fid f st.db.geounits.length subjObjs
        { st with db := { st.db with geounits := st.db.geounits ++ [row] } } hallp
      have hpcPres := processChars_pres saveFails f.fid f st.db.geounits.length subjObjs
        { st with db := { st.db with geounits := st.db.geounits ++ [row] } }
      cases hpc : processChars saveFails f.fid f st.db.geounits.length
          { st with db := { st.db with geounits := st.db.geounits ++ [row] } } subjObjs with
      | mk stMid e =>
        rw [hpc] at hpcOk hpcPres
        cases e with
        | some e2 => exact absurd hpcOk.1 (by simp)
        | none =>
          dsimp only
          have key := ih stMid hfs
          have hgeo : stMid.db.geounits = st.db.geounits ++ [row] := hpcPres.2.1
          have hgf : stMid.geomFailures = st.geomFailures := hpcPres.2.2
          refine ⟨key.1, ?_, ?_, ?_⟩
          · rw [key.2.1, hgeo]
            simp only [List.filter_cons, hrow, Option.isSome_some, if_true,
              List.length_append, List.length_cons, List.length_nil]
            omega
          · rw [key.2.2.1, hgf]
            simp [List.filter_cons, hrow]
          · exact shapeFrame_trans
              (shapeFrame_trans ⟨rfl, rfl, rfl, rfl, rfl, rfl, rfl⟩ hpcPres.1) key.2.2.2

/-- A fold of the Geounit Importer that ends without an uncaught exception
had parseable attribute values for every feature whose geometry block
succeeded. -/
theorem importShapeGo_none_imp (simplifyFn : List Poly → RawGeom) (saveFails : Int → Bool)
    (scfg : ShapeCfg) (subjObjs : List (String × String)) :
    ∀ (feats : List Feature) (st : ImportState),
      (foldE (processFeature simplifyFn saveFails scfg subjObjs) st feats).2 = none →
      ∀ f ∈ feats, (mkGeounit simplifyFn scfg f).isSome = true → charsOk subjObjs f = true := by
  intro feats
  induction feats with
  | nil => intro st _ f hf; simp at hf
  | cons g fs ih =>
    intro st h f hf hsome
    obtain ⟨h1, h2⟩ := foldE_none_split h
    rcases List.mem_cons.1 hf with hf | hf
    · subst hf
      obtain ⟨row, hrow⟩ := Option.isSome_iff_exists.1 hsome
      rw [processFeature_okEq hrow] at h1
      rw [charsOk, List.all_eq_true]
      intro p hp
      exact processChars_none_imp saveFails f.fid f st.db.geounits.length subjObjs _ h1 p hp
    · exact ih _ h2 f hf hsome

/-- One feature never touches the catalog tables. -/
theorem processFeature_frame (simplifyFn : List Poly → RawGeom) (saveFails : Int → Bool)
    (scfg : ShapeCfg) (subjObjs : List (String × String)) (st : ImportState) (f : Feature) :
    ShapeFrame st (processFeature simplifyFn saveFails scfg subjObjs st f).1 := by
  cases hrow : mkGeounit simplifyFn scfg f with
  | none =>
    rw [processFeature_fail hrow]
    exact ⟨rfl, rfl, rfl, rfl, rfl, rfl, rfl⟩
  | some row =>
    rw [processFeature_okEq hrow]
    exact shapeFrame_trans (⟨rfl, rfl, rfl, rfl, rfl, rfl, rfl⟩ : ShapeFrame st _)
      (processChars_pres saveFails f.fid f st.db.geounits.length subjObjs _).1

/-- `import_shape` never touches the catalog tables. -/
theorem importShape_frame (simplifyFn : List Poly → RawGeom) (saveFails : Int → Bool)
    (scfg : ShapeCfg) (feats : List Feature) (st : ImportState) :
    ShapeFrame st (importShape simplifyFn saveFails scfg feats st).1 := by
  unfold importShape
  cases hg : st.db.geolevels.find? fun r => r.name == scfg.geolevel with
  | none => exact shapeFrame_refl st
  | some r =>
    dsimp only
    cases hb : buildSubjObjs st.db scfg.subject_fields with
    | error e => exact shapeFrame_refl st
    | ok so =>
      dsimp only
      exact foldE_rel _ ShapeFrame (fun a b c h1 h2 => shapeFrame_trans h1 h2) shapeFrame_refl
        (fun s a => processFeature_frame simplifyFn saveFails scfg so s a) feats st

/-- The whole geolevel-import loop never touches the catalog tables. -/
theorem runLevels_frame (simplifyFn : List Poly → RawGeom) (saveFails : Int → Bool)
    (cfg : Config) :
    ∀ (ls : List (GeoLevelCfg × List Feature)) (st : ImportState),
      ShapeFrame st (runLevels simplifyFn saveFails cfg st ls).1 := by
  intro ls
  induction ls with
  | nil => intro st; exact shapeFrame_refl st
  | cons p rest ih =>
    intro st
    rcases p with ⟨g, feats⟩
    unfold runLevels
    cases hm : mkShapeCfg cfg g with
    | error e => exact shapeFrame_refl st
    | ok scfg =>
      dsimp only
      have hfr := importShape_frame simplifyFn saveFails scfg feats st
      cases his : importShape simplifyFn saveFails scfg feats st with
      | mk st1 e =>
        rw [his] at hfr
        cases e with
        | none => exact shapeFrame_trans hfr (ih st1)
        | some e2 => exact hfr

/-- `subject_objects` only reads the Subject table. -/
theorem buildSubjObjsGo_congr {d d' : DB} (h : d'.subjects = d.subjects) :
    ∀ (l : List SubjectFieldCfg) (acc : List (String × String)),
      buildSubjObjsGo d' acc l = buildSubjObjsGo d acc l := by
  intro l
  induction l with
  | nil => intro acc; rfl
  | cons sf rest ih =>
    intro acc
    unfold buildSubjObjsGo
    rw [h]
    cases hf : d.subjects.find? fun r => r.name == resolvedSid sf with
    | none => rfl
    | some srow =>
      dsimp only
      exact ih _

theorem buildSubjObjs_congr {d d' : DB} (h : d'.subjects = d.subjects)
    (sfs : List SubjectFieldCfg) : buildSubjObjs d' sfs = buildSubjObjs d sfs :=
  buildSubjObjsGo_congr h sfs []

/-- A non-fatal `import_shape` run found its geolevel row and built its
subject objects. -/
theorem importShape_none_inv {simplifyFn : List Poly → RawGeom} {saveFails : Int → Bool}
    {scfg : ShapeCfg} {feats : List Feature} {st : ImportState}
    (h : (importShape simplifyFn saveFails scfg feats st).2 = none) :
    ∃ r so, (st.db.geolevels.find? fun x => x.name == scfg.geolevel) = some r ∧
      buildSubjObjs st.db scfg.subject_fields = .ok so := by
  unfold importShape at h
  cases hg : st.db.geolevels.find? fun x => x.name == scfg.geolevel with
  | none => rw [hg] at h; simp at h
  | some r =>
    rw [hg] at h
    dsimp only at h
    cases hb : buildSubjObjs st.db scfg.subject_fields with
    | error e => rw [hb] at h; simp at h
    | ok so => exact ⟨r, so, rfl, rfl⟩

theorem importShape_eq_fold {simplifyFn : List Poly → RawGeom} {saveFails : Int → Bool}
    {scfg : ShapeCfg} {st : ImportState} {r : GeolevelRow} {so : List (String × String)}
    (hg : (st.db.geolevels.find? fun x => x.name == scfg.geolevel) = some r)
    (hb : buildSubjObjs st.db scfg.subject_fields = .ok so) (feats : List Feature) :
    importShape simplifyFn saveFails scfg feats st =
      foldE (processFeature simplifyFn saveFails scfg so) st feats := by
  unfold importShape
  rw [hg]
  dsimp only
  rw [hb]

/-- Replaying one `import_shape` against a store with the same Subject and
Geolevel catalogs: it succeeds, the catalogs stay aligned, and exactly as
many Geounits are appended as in the first run. -/
theorem importShape_replay {simplifyFn : List Poly → RawGeom} {saveFails : Int → Bool}
    {scfg : ShapeCfg} {feats : List Feature} {u w : ImportState}
    (hu : (importShape simplifyFn saveFails scfg feats u).2 = none) (he : ImpEq u w) :
    (importShape simplifyFn saveFails scfg feats w).2 = none ∧
    ImpEq (importShape simplifyFn saveFails scfg feats u).1
      (importShape simplifyFn saveFails scfg feats w).1 ∧
    (importShape simplifyFn saveFails scfg feats w).1.db.geounits.length +
        u.db.geounits.length =
      (importShape simplifyFn saveFails scfg feats u).1.db.geounits.length +
        w.db.geounits.length := by
  obtain ⟨r, so, hg, hb⟩ := importShape_none_inv hu
  have hgw : (w.db.geolevels.find? fun x => x.name == scfg.geolevel) = some r := by
    rw [he.2]; exact hg
  have hbw : buildSubjObjs w.db scfg.subject_fields = .ok so := by
    rw [buildSubjObjs_congr he.1]; exact hb
  rw [importShape_eq_fold hg hb feats] at hu ⊢
  rw [importShape_eq_fold hgw hbw feats]
  have hall := importShapeGo_none_imp simplifyFn saveFails scfg so feats u hu
  have hU := importShapeGo_spec simplifyFn saveFails scfg so feats u hall
  have hW := importShapeGo_spec simplifyFn saveFails scfg so feats w hall
  refine ⟨hW.1, ⟨?_, ?_⟩, ?_⟩
  · rw [(hW.2.2.2).2.1, (hU.2.2.2).2.1]
    exact he.1
  · rw [(hW.2.2.2).2.2.2.1, (hU.2.2.2).2.2.2.1]
    exact he.2
  · rw [hW.2.1, hU.2.1]
    omega

theorem runLevels_cons_ok {simplifyFn : List Poly → RawGeom} {saveFails : Int → Bool}
    {cfg : Config} {g : GeoLevelCfg} {scfg : ShapeCfg} (hm : mkShapeCfg cfg g = .ok scfg)
    (feats : List Feature) (rest : List (GeoLevelCfg × List Feature)) (st : ImportState) :
    runLevels simplifyFn saveFails cfg st ((g, feats) :: rest) =
      (match importShape simplifyFn saveFails scfg feats st with
       | (st1, none) => runLevels simplifyFn saveFails cfg st1 rest
       | (st1, some e) => (st1, some e)) := by
  show (match mkShapeCfg cfg g with
    | Except.error e => (st, some e)
    | Except.ok scfg =>
      match importShape simplifyFn saveFails scfg feats st with
      | (st1, none) => runLevels simplifyFn saveFails cfg st1 rest
      | (st1, some e) => (st1, some e)) =
    (match importShape simplifyFn saveFails scfg feats st with
     | (st1, none) => runLevels simplifyFn saveFails cfg st1 rest
     | (st1, some e) => (st1, some e))
  rw [hm]

/-- Replaying the whole geolevel-import loop against a store with the same
Subject and Geolevel catalogs: it succeeds, keeps the catalogs aligned, and
appends exactly as many Geounits as the first run did. -/
theorem runLevels_replay (simplifyFn : List Poly → RawGeom) (saveFails : Int → Bool)
    (cfg : Config) :
    ∀ (ls : List (GeoLevelCfg × List Feature)) (u w : ImportState),
      (runLevels simplifyFn saveFails cfg u ls).2 = none → ImpEq u w →
      (runLevels simplifyFn saveFails cfg w ls).2 = none ∧
      ImpEq (runLevels simplifyFn saveFails cfg u ls).1
        (runLevels simplifyFn saveFails cfg w ls).1 ∧
      (runLevels simplifyFn saveFails cfg w ls).1.db.geounits.length +
          u.db.geounits.length =
        (runLevels simplifyFn saveFails cfg u ls).1.db.geounits.length +
          w.db.geounits.length := by
  intro ls
  induction ls with
  | nil =>
    intro u w _ he
    exact ⟨rfl, he, Nat.add_comm _ _⟩
  | cons p rest ih =>
    intro u w h he
    rcases p with ⟨g, feats⟩
    cases hm : mkShapeCfg cfg g with
    | error e =>
      have hx : runLevels simplifyFn saveFails cfg u ((g, feats) :: rest) = (u, some e) := by
        unfold runLevels
        rw [hm]
      rw [hx] at h
      exact absurd h (by simp)
    | ok scfg =>
      rw [runLevels_cons_ok hm feats rest u] at h ⊢
      rw [runLevels_cons_ok hm feats rest w]
      cases hisu : importShape simplifyFn saveFails scfg feats u with
      | mk u1 e1 =>
        rw [hisu] at h
        cases e1 with
        | some e2 =>
          dsimp only at h
          exact absurd h (by simp)
        | none =>
          dsimp only at h ⊢
          have hu2 : (importShape simplifyFn saveFails scfg feats u).2 = none := by
            rw [hisu]
          have hstep := importShape_replay hu2 he
          have hisw : importShape simplifyFn saveFails scfg feats w =
              ((importShape simplifyFn saveFails scfg feats w).1, none) := by
            rw [← hstep.1]
          rw [hisw]
          dsimp only
          have himp1 : ImpEq u1 (importShape simplifyFn saveFails scfg feats w).1 := by
            have hx := hstep.2.1
            rw [hisu] at hx
            exact hx
          have key := ih u1 (importShape simplifyFn saveFails scfg feats w).1 h himp1
          refine ⟨key.1, key.2.1, ?_⟩
          have hlen := hstep.2.2
          rw [hisu] at hlen
          dsimp only at hlen
          have klen := key.2.2
          omega

/-! ### Reconciler inversion and stability lemmas -/

/-- A successful `import_prereq` run decomposes into its three stages. -/
theorem importPrereq_none_split {cfg : Config} {db : DB}
    (h : (importPrereq cfg db).2 = none) :
    ∃ db2 db3,
      foldE (processTarget cfg) (importSubjects cfg (importBodies cfg db)) cfg.targets =
        (db2, none) ∧
      foldE (processGeoLevel cfg) db2 cfg.geolevels = (db3, none) ∧
      importPrereq cfg db = (importAnon db3, none) := by
  unfold importPrereq at h
  rcases hr1 : foldE (processTarget cfg) (importSubjects cfg (importBodies cfg db)) cfg.targets
    with ⟨db2, e2⟩
  rw [hr1] at h
  cases e2 with
  | some e => simp at h
  | none =>
    rcases hr2 : foldE (processGeoLevel cfg) db2 cfg.geolevels with ⟨db3, e3⟩
    simp only [hr2] at h
    cases e3 with
    | some e => simp at h
    | none =>
      refine ⟨db2, db3, rfl, hr2, ?_⟩
      unfold importPrereq
      rw [hr1]
      simp only [hr2]

theorem processTarget_ok_inv {cfg : Config} {d : DB} {t : TargetCfg} {d1 : DB}
    (h : processTarget cfg d t = (d1, none)) :
    ∃ sc srow, resolveSubjectCfg cfg t.subjectref = some sc ∧
      d.subjects.find? (fun r => r.name == sc.id) = some srow ∧
      d1 = { d with targets := gocList d.targets ⟨srow.name, t.value, t.range1, t.range2⟩ } := by
  unfold processTarget at h
  cases hr : resolveSubjectCfg cfg t.subjectref with
  | none => simp only [hr] at h; simp at h
  | some sc =>
    simp only [hr] at h
    cases hs : d.subjects.find? fun r => r.name == sc.id with
    | none => simp only [hs] at h; simp at h
    | some srow =>
      simp only [hs] at h
      injection h with ha hb
      exact ⟨sc, srow, rfl, hs, ha.symm⟩

theorem processLegTarget_ok_inv {cfg : Config} {brow : LegislativeBodyRow}
    {grow : GeolevelRow} {lb : LBodyRef} {d : DB} {tr : LegTargetRef} {d1 : DB}
    (h : processLegTarget cfg brow grow lb d tr = (d1, none)) :
    ∃ tc sc srow trow pk,
      findTargetCfg cfg tr.ref = some tc ∧
      resolveSubjectCfg cfg tc.subjectref = some sc ∧
      d.subjects.find? (fun r => r.name == sc.id) = some srow ∧
      d.targets.find? (fun r => r.subject == srow.name && r.value == tc.value &&
        r.range1 == tc.range1 && r.range2 == tc.range2) = some trow ∧
      resolveParent cfg (if tr.default.isSome then setDefault d brow.name trow else d)
        brow.name trow lb.parent = .ok pk ∧
      d1 = { (if tr.default.isSome then setDefault d brow.name trow else d) with
        levels := gocList (if tr.default.isSome then setDefault d brow.name trow else d).levels ⟨brow.name, grow.name, trow, pk⟩ } := by
  unfold processLegTarget at h
  cases h1 : findTargetCfg cfg tr.ref with
  | none => simp only [h1] at h; simp at h
  | some tc =>
    simp only [h1] at h
    cases h2 : resolveSubjectCfg cfg tc.subjectref with
    | none => simp only [h2] at h; simp at h
    | some sc =>
      simp only [h2] at h
      cases h3 : d.subjects.find? fun r => r.name == sc.id with
      | none => simp only [h3] at h; simp at h
      | some srow =>
        simp only [h3] at h
        cases h4 : d.targets.find? fun r => r.subject == srow.name &&
            r.value == tc.value && r.range1 == tc.range1 && r.range2 == tc.range2 with
        | none => simp only [h4] at h; simp at h
        | some trow =>
          simp only [h4] at h
          unfold finishLegTarget at h
          cases h5 : resolveParent cfg
              (if tr.default.isSome then setDefault d brow.name trow else d)
              brow.name trow lb.parent with
          | error e => simp only [h5] at h; simp at h
          | ok pk =>
            simp only [h5] at h
            injection h with ha hb
            exact ⟨tc, sc, srow, trow, pk, rfl, h2, h3, h4, h5, ha.symm⟩

theorem processLBody_ok_inv {cfg : Config} {grow : GeolevelRow} {d : DB} {lb : LBodyRef}
    {d1 : DB} (h : processLBody cfg grow d lb = (d1, none)) :
    ∃ bc brow, cfg.bodies.find? (fun b => b.id == lb.ref) = some bc ∧
      d.bodies.find? (fun r => r.name == bc.name) = some brow ∧
      foldE (processLegTarget cfg brow grow lb) d lb.targets = (d1, none) := by
  unfold processLBody at h
  cases h1 : cfg.bodies.find? fun b => b.id == lb.ref with
  | none => simp only [h1] at h; simp at h
  | some bc =>
    simp only [h1] at h
    cases h2 : d.bodies.find? fun r => r.name == bc.name with
    | none => simp only [h2] at h; simp at h
    | some brow =>
      simp only [h2] at h
      exact ⟨bc, brow, rfl, h2, h⟩

theorem processGeoLevel_eq (cfg : Config) (d : DB) (g : GeoLevelCfg) :
    processGeoLevel cfg d g =
      foldE (processLBody cfg (mkGlvlRow g))
        { d with geolevels := gocList d.geolevels (mkGlvlRow g) } g.lbodies := by
  rfl

/-- `resolveParent` reads only the geolevels and levels tables. -/
theorem resolveParent_congr {cfg : Config} {d d' : DB} {body : String} {t : TargetRow}
    {par : Option String} (hg : d'.geolevels = d.geolevels) (hl : d'.levels = d.levels) :
    resolveParent cfg d' body t par = resolveParent cfg d body t par := by
  unfold resolveParent
  cases par with
  | none => rfl
  | some pid => rw [hg, hl]

/-- `resolveParent` success is stable under store extension. -/
theorem resolveParent_stable {cfg : Config} {d d' : DB} {body : String} {t : TargetRow}
    {par : Option String} {pk : Option String} (hext : DBExt d d')
    (h : resolveParent cfg d body t par = .ok pk) :
    resolveParent cfg d' body t par = .ok pk := by
  unfold resolveParent at h ⊢
  cases par with
  | none => exact h
  | some pid =>
    cases h1 : cfg.geolevels.find? fun gg => gg.id == pid with
    | none => simp only [h1] at h; simp at h
    | some pcfg =>
      simp only [h1] at h ⊢
      cases h2 : d.geolevels.find? fun r => r.name == pcfg.name with
      | none => simp only [h2] at h; simp at h
      | some plvl =>
        simp only [h2] at h
        rw [find?_stable hext.geolevels h2]
        dsimp only
        cases h3 : d.levels.find? fun r =>
            r.legislative_body == body && r.geolevel == plvl.name && r.target == t with
        | none => simp only [h3] at h; simp at h
        | some prow =>
          simp only [h3] at h
          rw [find?_stable hext.levels h3]
          exact h

/-- Membership in the defaults body column after `setDefault`. -/
theorem setDefault_body_mem (d : DB) (body : String) (t : TargetRow) :
    body ∈ defBodies (setDefault d body t) := by
  unfold setDefault defBodies
  split
  · rename_i hany
    obtain ⟨drow, hmem, hbody⟩ := List.any_eq_true.1 hany
    refine List.mem_map.2 ⟨{ drow with target := t }, ?_, ?_⟩
    · refine List.mem_map.2 ⟨drow, hmem, ?_⟩
      rw [if_pos hbody]
    · simpa using hbody
  · simp

/-- A body already present in the defaults table keeps the body column
unchanged under `setDefault`. -/
theorem setDefault_defb_of_mem {d : DB} {body : String} (t : TargetRow)
    (h : body ∈ defBodies d) : defBodies (setDefault d body t) = defBodies d := by
  unfold setDefault defBodies
  have hany : (d.defaults.any fun x => x.legislative_body == body) = true := by
    rw [List.any_eq_true]
    obtain ⟨x, hx, hbx⟩ := List.mem_map.1 h
    exact ⟨x, hx, by simp [hbx]⟩
  rw [if_pos hany]
  rw [List.map_map]
  apply List.map_congr_left
  intro x _
  simp only [Function.comp]
  split <;> rfl

/-! ### What a successful reconciliation run leaves behind -/

/-- The facts survive store extension. -/
theorem prereqFacts_mono {cfg : Config} {d d' : DB} (hext : DBExt d d')
    (h : PrereqFacts cfg d) : PrereqFacts cfg d' := by
  obtain ⟨hb, hs, ht, hg⟩ := h
  refine ⟨?_, ?_, ?_, ?_⟩
  · intro b hbm
    exact mem_of_exists_append hext.bodies (hb b hbm)
  · intro s hsm ha
    exact mem_of_exists_append hext.subjects (hs s hsm ha)
  · intro t htm
    obtain ⟨sc, srow, h1, h2, h3⟩ := ht t htm
    exact ⟨sc, srow, h1, find?_stable hext.subjects h2,
      mem_of_exists_append hext.targets h3⟩
  · intro g hgm
    obtain ⟨hrow, hlbs⟩ := hg g hgm
    refine ⟨mem_of_exists_append hext.geolevels hrow, ?_⟩
    intro lb hlbm
    obtain ⟨bc, brow, h1, h2, htrs⟩ := hlbs lb hlbm
    refine ⟨bc, brow, h1, find?_stable hext.bodies h2, ?_⟩
    intro tr htrm
    obtain ⟨tc, sc, srow, trow, pk, k1, k2, k3, k4, k5, k6, k7⟩ := htrs tr htrm
    exact ⟨tc, sc, srow, trow, pk, k1, k2, find?_stable hext.subjects k3,
      find?_stable hext.targets k4, resolveParent_stable hext k5,
      mem_of_exists_append hext.levels k6,
      fun hd => mem_of_exists_append hext.defb (k7 hd)⟩

/-- Establishment, innermost: a successful fold over the legislative
targets of one body reference makes every target's fact true in any
extension of its final state. -/
theorem legTargets_establish (cfg : Config) (brow : LegislativeBodyRow)
    (grow : GeolevelRow) (lb : LBodyRef) :
    ∀ (trs : List LegTargetRef) (d d' : DB),
      foldE (processLegTarget cfg brow grow lb) d trs = (d', none) →
      ∀ X, DBExt d' X → ∀ tr ∈ trs, legTargFact cfg X brow grow.name lb tr := by
  intro trs
  induction trs with
  | nil => intro d d' _ X _ tr htr; simp at htr
  | cons tr0 rest ih =>
    intro d d' hfold X hX tr htr
    rw [foldE_cons] at hfold
    cases hstep : processLegTarget cfg brow grow lb d tr0 with
    | mk dmid e =>
      rw [hstep] at hfold
      cases e with
      | some e0 => simp at hfold
      | none =>
        simp only at hfold
        have hmidX : DBExt dmid X := by
          have hrest := foldE_rel (processLegTarget cfg brow grow lb) DBExt
            (fun a b c => dbExt_trans) dbExt_refl
            (fun s a => processLegTarget_ext cfg brow grow lb s a) rest dmid
          rw [hfold] at hrest
          exact dbExt_trans hrest hX
        rcases List.mem_cons.1 htr with htr | htr
        · subst htr
          obtain ⟨tc, sc, srow, trow, pk, k1, k2, k3, k4, k5, keq⟩ :=
            processLegTarget_ok_inv hstep
          have hIf : DBExt d (if tr.default.isSome then setDefault d brow.name trow else d) := by
            split
            · exact setDefault_ext d brow.name trow
            · exact dbExt_refl d
          have hIfMid : DBExt (if tr.default.isSome then setDefault d brow.name trow else d) dmid := by
            rw [keq]
            exact ⟨⟨[], append_nil_eq rfl⟩, ⟨[], append_nil_eq rfl⟩, ⟨[], append_nil_eq rfl⟩,
              ⟨[], append_nil_eq rfl⟩, gocList_append _ _, ⟨[], append_nil_eq rfl⟩⟩
          have hIfX : DBExt (if tr.default.isSome then setDefault d brow.name trow else d) X :=
            dbExt_trans hIfMid hmidX
          refine ⟨tc, sc, srow, trow, pk, k1, k2, ?_, ?_, ?_, ?_, ?_⟩
          · have hsub : (if tr.default.isSome then setDefault d brow.name trow else d).subjects
                = d.subjects := by
              split <;> rfl
            have hstab : ∃ e, X.subjects = d.subjects ++ e := by
              rw [← hsub]
              exact hIfX.subjects
            exact find?_stable hstab k3
          · have htar : (if tr.default.isSome then setDefault d brow.name trow else d).targets
                = d.targets := by
              split <;> rfl
            have hstab : ∃ e, X.targets = d.targets ++ e := by
              rw [← htar]
              exact hIfX.targets
            exact find?_stable hstab k4
          · exact resolveParent_stable hIfX k5
          · refine mem_of_exists_append hmidX.levels ?_
            rw [keq]
            exact gocList_self_mem _ _
          · intro hd
            refine mem_of_exists_append hIfX.defb ?_
            rw [if_pos hd]
            exact setDefault_body_mem d brow.name trow
        · exact ih dmid d' hfold X hX tr htr

/-- Establishment, middle: a successful fold over a geolevel's body
references resolves every one of them in any extension of its final
state. -/
theorem lbodies_establish (cfg : Config) (grow : GeolevelRow) :
    ∀ (lbs : List LBodyRef) (d d' : DB),
      foldE (processLBody cfg grow) d lbs = (d', none) →
      ∀ X, DBExt d' X → ∀ lb ∈ lbs, ∃ bc brow,
        cfg.bodies.find? (fun b => b.id == lb.ref) = some bc ∧
        X.bodies.find? (fun r => r.name == bc.name) = some brow ∧
        ∀ tr ∈ lb.targets, legTargFact cfg X brow grow.name lb tr := by
  intro lbs
  induction lbs with
  | nil => intro d d' _ X _ lb hlb; simp at hlb
  | cons lb0 rest ih =>
    intro d d' hfold X hX lb hlb
    rw [foldE_cons] at hfold
    cases hstep : processLBody cfg grow d lb0 with
    | mk dmid e =>
      rw [hstep] at hfold
      cases e with
      | some e0 => simp at hfold
      | none =>
        simp only at hfold
        have hmidX : DBExt dmid X := by
          have hrest := foldE_rel (processLBody cfg grow) DBExt
            (fun a b c => dbExt_trans) dbExt_refl
            (fun s a => processLBody_ext cfg grow s a) rest dmid
          rw [hfold] at hrest
          exact dbExt_trans hrest hX
        rcases List.mem_cons.1 hlb with hlb | hlb
        · subst hlb
          obtain ⟨bc, brow, h1, h2, h3⟩ := processLBody_ok_inv hstep
          refine ⟨bc, brow, h1, ?_, ?_⟩
          · have hdX : DBExt d X := by
              have hd : DBExt d dmid := by
                have := foldE_rel (processLegTarget cfg brow grow lb) DBExt
                  (fun a b c => dbExt_trans) dbExt_refl
                  (fun s a => processLegTarget_ext cfg brow grow lb s a) lb.targets d
                rw [h3] at this
                exact this
              exact dbExt_trans hd hmidX
            exact find?_stable hdX.bodies h2
          · exact legTargets_establish cfg brow grow lb lb.targets d dmid h3 X hmidX
        · exact ih dmid d' hfold X hX lb hlb

/-- Establishment, outer: a successful fold over the configuration's
geolevels makes every geolevel fact true in any extension of its final
state. -/
theorem glvls_establish (cfg : Config) :
    ∀ (gs : List GeoLevelCfg) (d d' : DB),
      foldE (processGeoLevel cfg) d gs = (d', none) →
      ∀ X, DBExt d' X → ∀ g ∈ gs, mkGlvlRow g ∈ X.geolevels ∧
        ∀ lb ∈ g.lbodies, ∃ bc brow,
          cfg.bodies.find? (fun b => b.id == lb.ref) = some bc ∧
          X.bodies.find? (fun r => r.name == bc.name) = some brow ∧
          ∀ tr ∈ lb.targets, legTargFact cfg X brow g.name lb tr := by
  intro gs
  induction gs with
  | nil => intro d d' _ X _ g hg; simp at hg
  | cons g0 rest ih =>
    intro d d' hfold X hX g hg
    rw [foldE_cons] at hfold
    cases hstep : processGeoLevel cfg d g0 with
    | mk dmid e =>
      rw [hstep] at hfold
      cases e with
      | some e0 => simp at hfold
      | none =>
        simp only at hfold
        have hmidX : DBExt dmid X := by
          have hrest := foldE_rel (processGeoLevel cfg) DBExt
            (fun a b c => dbExt_trans) dbExt_refl
            (fun s a => processGeoLevel_ext cfg s a) rest dmid
          rw [hfold] at hrest
          exact dbExt_trans hrest hX
        rcases List.mem_cons.1 hg with hg | hg
        · subst hg
          rw [processGeoLevel_eq] at hstep
          have hgocX : DBExt { d with geolevels := gocList d.geolevels (mkGlvlRow g) } X := by
            have hd : DBExt { d with geolevels := gocList d.geolevels (mkGlvlRow g) } dmid := by
              have := foldE_rel (processLBody cfg (mkGlvlRow g)) DBExt
                (fun a b c => dbExt_trans) dbExt_refl
                (fun s a => processLBody_ext cfg (mkGlvlRow g) s a) g.lbodies
                { d with geolevels := gocList d.geolevels (mkGlvlRow g) }
              rw [hstep] at this
              exact this
            exact dbExt_trans hd hmidX
          refine ⟨?_, ?_⟩
          · exact mem_of_exists_append hgocX.geolevels (gocList_self_mem _ _)
          · exact lbodies_establish cfg (mkGlvlRow g) g.lbodies _ dmid hstep X hmidX
        · exact ih dmid d' hfold X hX g hg

/-- Establishment for the target phase. -/
theorem targets_establish (cfg : Config) :
    ∀ (ts : List TargetCfg) (d d' : DB),
      foldE (processTarget cfg) d ts = (d', none) →
      ∀ X, DBExt d' X → ∀ t ∈ ts, ∃ sc srow,
        resolveSubjectCfg cfg t.subjectref = some sc ∧
        X.subjects.find? (fun r => r.name == sc.id) = some srow ∧
        (⟨srow.name, t.value, t.range1, t.range2⟩ : TargetRow) ∈ X.targets := by
  intro ts
  induction ts with
  | nil => intro d d' _ X _ t ht; simp at ht
  | cons t0 rest ih =>
    intro d d' hfold X hX t ht
    rw [foldE_cons] at hfold
    cases hstep : processTarget cfg d t0 with
    | mk dmid e =>
      rw [hstep] at hfold
      cases e with
      | some e0 => simp at hfold
      | none =>
        simp only at hfold
        have hmidX : DBExt dmid X := by
          have hrest := foldE_rel (processTarget cfg) DBExt
            (fun a b c => dbExt_trans) dbExt_refl
            (fun s a => processTarget_ext cfg s a) rest dmid
          rw [hfold] at hrest
          exact dbExt_trans hrest hX
        rcases List.mem_cons.1 ht with ht | ht
        · subst ht
          obtain ⟨sc, srow, h1, h2, heq⟩ := processTarget_ok_inv hstep
          refine ⟨sc, srow, h1, ?_, ?_⟩
          · have hsub : dmid.subjects = d.subjects := by rw [heq]
            have hstab : ∃ e, X.subjects = d.subjects ++ e := by
              rw [← hsub]
              exact hmidX.subjects
            exact find?_stable hstab h2
          · refine mem_of_exists_append hmidX.targets ?_
            rw [heq]
            exact gocList_self_mem _ _
        · exact ih dmid d' hfold X hX t ht

/-- Pass 1: a successful `import_prereq` run establishes all the facts at
its final store. -/
theorem prereq_establish {cfg : Config} {db d1 : DB}
    (h : importPrereq cfg db = (d1, none)) : PrereqFacts cfg d1 := by
  have hsplit : (importPrereq cfg db).2 = none := by rw [h]
  obtain ⟨db2, db3, h1, h2, heq⟩ := importPrereq_none_split hsplit
  have hd1 : d1 = importAnon db3 := by
    rw [h] at heq
    injection heq with ha _
  have hA : DBExt (importBodies cfg db) d1 := by
    have e1 := importSubjects_ext cfg (importBodies cfg db)
    have e2 := foldE_rel (processTarget cfg) DBExt (fun a b c => dbExt_trans) dbExt_refl
      (fun s a => processTarget_ext cfg s a) cfg.targets
      (importSubjects cfg (importBodies cfg db))
    rw [h1] at e2
    have e3 := foldE_rel (processGeoLevel cfg) DBExt (fun a b c => dbExt_trans) dbExt_refl
      (fun s a => processGeoLevel_ext cfg s a) cfg.geolevels db2
    rw [h2] at e3
    have e4 := importAnon_ext db3
    rw [← hd1] at e4
    exact dbExt_trans e1 (dbExt_trans e2 (dbExt_trans e3 e4))
  have hB : DBExt (importSubjects cfg (importBodies cfg db)) d1 := by
    have e2 := foldE_rel (processTarget cfg) DBExt (fun a b c => dbExt_trans) dbExt_refl
      (fun s a => processTarget_ext cfg s a) cfg.targets
      (importSubjects cfg (importBodies cfg db))
    rw [h1] at e2
    have e3 := foldE_rel (processGeoLevel cfg) DBExt (fun a b c => dbExt_trans) dbExt_refl
      (fun s a => processGeoLevel_ext cfg s a) cfg.geolevels db2
    rw [h2] at e3
    have e4 := importAnon_ext db3
    rw [← hd1] at e4
    exact dbExt_trans e2 (dbExt_trans e3 e4)
  have hC : DBExt db3 d1 := by
    have e4 := importAnon_ext db3
    rw [← hd1] at e4
    exact e4
  refine ⟨?_, ?_, ?_, ?_⟩
  · intro b hb
    refine mem_of_exists_append hA.bodies ?_
    unfold importBodies
    exact foldl_goc_mem_self (List.mem_map_of_mem mkBodyRow hb) db.bodies
  · intro s hs hal
    refine mem_of_exists_append hB.subjects ?_
    unfold importSubjects
    refine foldl_goc_mem_self ?_ (importBodies cfg db).subjects
    exact List.mem_map_of_mem mkSubjectRow (List.mem_filter.2 ⟨hs, by simp [hal]⟩)
  · intro t ht
    have e3 := foldE_rel (processGeoLevel cfg) DBExt (fun a b c => dbExt_trans) dbExt_refl
      (fun s a => processGeoLevel_ext cfg s a) cfg.geolevels db2
    rw [h2] at e3
    exact targets_establish cfg cfg.targets _ db2 h1 d1 (dbExt_trans e3 hC) t ht
  · intro g hg
    exact glvls_establish cfg cfg.geolevels db2 db3 h2 d1 hC g hg

/-! ### Pass 2: replaying reconciliation against a store that already has
everything -/

theorem importBodies_replay {cfg : Config} {d0 d : DB} (hb : bodyFacts cfg d0)
    (hre : ReplayEq d0 d) : ReplayEq d0 (importBodies cfg d) := by
  refine ⟨?_, hre.2.1, hre.2.2.1, hre.2.2.2.1, hre.2.2.2.2.1, hre.2.2.2.2.2⟩
  show (cfg.bodies.map mkBodyRow).foldl gocList d.bodies = d0.bodies
  rw [foldl_goc_id, hre.1]
  intro r hr
  obtain ⟨b, hbm, hbe⟩ := List.mem_map.1 hr
  rw [hre.1, ← hbe]
  exact hb b hbm

theorem importSubjects_replay {cfg : Config} {d0 d : DB} (hs : subjFacts cfg d0)
    (hre : ReplayEq d0 d) : ReplayEq d0 (importSubjects cfg d) := by
  refine ⟨hre.1, ?_, hre.2.2.1, hre.2.2.2.1, hre.2.2.2.2.1, hre.2.2.2.2.2⟩
  show ((cfg.subjects.filter fun s => s.aliasfor.isNone).map mkSubjectRow).foldl
    gocList d.subjects = d0.subjects
  rw [foldl_goc_id, hre.2.1]
  intro r hr
  obtain ⟨s, hsm, hse⟩ := List.mem_map.1 hr
  obtain ⟨hsc, hal⟩ := List.mem_filter.1 hsm
  rw [hre.2.1, ← hse]
  exact hs s hsc (by simpa using hal)

theorem foldE_targets_replay (cfg : Config) {d0 : DB} :
    ∀ (ts : List TargetCfg),
      (∀ t ∈ ts, ∃ sc srow,
        resolveSubjectCfg cfg t.subjectref = some sc ∧
        d0.subjects.find? (fun r => r.name == sc.id) = some srow ∧
        (⟨srow.name, t.value, t.range1, t.range2⟩ : TargetRow) ∈ d0.targets) →
      ∀ d, ReplayEq d0 d →
        (foldE (processTarget cfg) d ts).2 = none ∧
        ReplayEq d0 (foldE (processTarget cfg) d ts).1 := by
  intro ts
  induction ts with
  | nil => intro _ d hre; exact ⟨rfl, hre⟩
  | cons t rest ih =>
    intro hfacts d hre
    obtain ⟨sc, srow, h1, h2, h3⟩ := hfacts t (by simp)
    have hstep : processTarget cfg d t =
        ({ d with targets := gocList d.targets ⟨srow.name, t.value, t.range1, t.range2⟩ },
          none) := by
      unfold processTarget
      rw [hre.2.1]
      simp only [h1, h2]
    have hgoceq : gocList d.targets ⟨srow.name, t.value, t.range1, t.range2⟩ = d.targets := by
      apply gocList_eq_of_mem
      rw [hre.2.2.1]
      exact h3
    have hre1 : ReplayEq d0 (processTarget cfg d t).1 := by
      rw [hstep]
      exact ⟨hre.1, hre.2.1, by simpa [hgoceq] using hre.2.2.1, hre.2.2.2.1,
        hre.2.2.2.2.1, hre.2.2.2.2.2⟩
    rw [foldE_cons, hstep]
    dsimp only
    exact ih (fun t2 ht2 => hfacts t2 (by simp [ht2]))
      { d with targets := gocList d.targets ⟨srow.name, t.value, t.range1, t.range2⟩ }
      (by rw [hstep] at hre1; exact hre1)

theorem processLegTarget_replay {cfg : Config} {d0 : DB} {brow : LegislativeBodyRow}
    {grow : GeolevelRow} {lb : LBodyRef} {tr : LegTargetRef}
    (hfact : legTargFact cfg d0 brow grow.name lb tr) :
    ∀ d, ReplayEq d0 d →
      (processLegTarget cfg brow grow lb d tr).2 = none ∧
      ReplayEq d0 (processLegTarget cfg brow grow lb d tr).1 := by
  intro d hre
  obtain ⟨tc, sc, srow, trow, pk, k1, k2, k3, k4, k5, k6, k7⟩ := hfact
  have hIfRe : ReplayEq d0 (if tr.default.isSome then setDefault d brow.name trow else d) := by
    by_cases hd : tr.default.isSome = true
    · rw [if_pos hd]
      refine ⟨hre.1, hre.2.1, hre.2.2.1, hre.2.2.2.1, hre.2.2.2.2.1, ?_⟩
      rw [setDefault_defb_of_mem trow, hre.2.2.2.2.2]
      rw [hre.2.2.2.2.2]
      exact k7 hd
    · rw [if_neg hd]
      exact hre
  have hpar : resolveParent cfg
      (if tr.default.isSome then setDefault d brow.name trow else d)
      brow.name trow lb.parent = .ok pk := by
    rw [resolveParent_congr (d := d0) hIfRe.2.2.2.1 hIfRe.2.2.2.2.1]
    exact k5
  have hgoc : gocList
      (if tr.default.isSome then setDefault d brow.name trow else d).levels
      ⟨brow.name, grow.name, trow, pk⟩ =
      (if tr.default.isSome then setDefault d brow.name trow else d).levels := by
    apply gocList_eq_of_mem
    rw [hIfRe.2.2.2.2.1]
    exact k6
  have hstep : processLegTarget cfg brow grow lb d tr =
      ({ (if tr.default.isSome then setDefault d brow.name trow else d) with
        levels := gocList
          (if tr.default.isSome then setDefault d brow.name trow else d).levels
          ⟨brow.name, grow.name, trow, pk⟩ }, none) := by
    unfold processLegTarget
    rw [hre.2.1, hre.2.2.1]
    simp only [k1, k2, k3, k4]
    unfold finishLegTarget
    simp only [hpar]
  rw [hstep]
  refine ⟨rfl, ?_⟩
  exact ⟨hIfRe.1, hIfRe.2.1, hIfRe.2.2.1, hIfRe.2.2.2.1,
    by simpa [hgoc] using hIfRe.2.2.2.2.1, hIfRe.2.2.2.2.2⟩

theorem foldE_legTargets_replay (cfg : Config) {d0 : DB} (brow : LegislativeBodyRow)
    (grow : GeolevelRow) (lb : LBodyRef) :
    ∀ (trs : List LegTargetRef),
      (∀ tr ∈ trs, legTargFact cfg d0 brow grow.name lb tr) →
      ∀ d, ReplayEq d0 d →
        (foldE (processLegTarget cfg brow grow lb) d trs).2 = none ∧
        ReplayEq d0 (foldE (processLegTarget cfg brow grow lb) d trs).1 := by
  intro trs
  induction trs with
  | nil => intro _ d hre; exact ⟨rfl, hre⟩
  | cons tr rest ih =>
    intro hfacts d hre
    obtain ⟨hnone, hre1⟩ := processLegTarget_replay (hfacts tr (by simp)) d hre
    rw [foldE_cons]
    cases hstep : processLegTarget cfg brow grow lb d tr with
    | mk dmid e =>
      rw [hstep] at hnone hre1
      cases e with
      | some e0 => simp at hnone
      | none =>
        dsimp only
        exact ih (fun tr2 ht2 => hfacts tr2 (by simp [ht2])) dmid hre1

theorem processLBody_replay {cfg : Config} {d0 : DB} {grow : GeolevelRow} {lb : LBodyRef}
    {bc : BodyCfg} {brow : LegislativeBodyRow}
    (h1 : cfg.bodies.find? (fun b => b.id == lb.ref) = some bc)
    (h2 : d0.bodies.find? (fun r => r.name == bc.name) = some brow)
    (h3 : ∀ tr ∈ lb.targets, legTargFact cfg d0 brow grow.name lb tr) :
    ∀ d, ReplayEq d0 d →
      (processLBody cfg grow d lb).2 = none ∧
      ReplayEq d0 (processLBody cfg grow d lb).1 := by
  intro d hre
  unfold processLBody
  rw [hre.1]
  simp only [h1, h2]
  exact foldE_legTargets_replay cfg brow grow lb lb.targets h3 d hre

theorem foldE_lbodies_replay (cfg : Config) {d0 : DB} (grow : GeolevelRow) :
    ∀ (lbs : List LBodyRef),
      (∀ lb ∈ lbs, ∃ bc brow,
        cfg.bodies.find? (fun b => b.id == lb.ref) = some bc ∧
        d0.bodies.find? (fun r => r.name == bc.name) = some brow ∧
        ∀ tr ∈ lb.targets, legTargFact cfg d0 brow grow.name lb tr) →
      ∀ d, ReplayEq d0 d →
        (foldE (processLBody cfg grow) d lbs).2 = none ∧
        ReplayEq d0 (foldE (processLBody cfg grow) d lbs).1 := by
  intro lbs
  induction lbs with
  | nil => intro _ d hre; exact ⟨rfl, hre⟩
  | cons lb rest ih =>
    intro hfacts d hre
    obtain ⟨bc, brow, h1, h2, h3⟩ := hfacts lb (by simp)
    obtain ⟨hnone, hre1⟩ := processLBody_replay h1 h2 h3 d hre
    rw [foldE_cons]
    cases hstep : processLBody cfg grow d lb with
    | mk dmid e =>
      rw [hstep] at hnone hre1
      cases e with
      | some e0 => simp at hnone
      | none =>
        dsimp only
        exact ih (fun lb2 h2m => hfacts lb2 (by simp [h2m])) dmid hre1

theorem processGeoLevel_replay {cfg : Config} {d0 : DB} {g : GeoLevelCfg}
    (hrow : mkGlvlRow g ∈ d0.geolevels)
    (hlbs : ∀ lb ∈ g.lbodies, ∃ bc brow,
      cfg.bodies.find? (fun b => b.id == lb.ref) = some bc ∧
      d0.bodies.find? (fun r => r.name == bc.name) = some brow ∧
      ∀ tr ∈ lb.targets, legTargFact cfg d0 brow g.name lb tr) :
    ∀ d, ReplayEq d0 d →
      (processGeoLevel cfg d g).2 = none ∧
      ReplayEq d0 (processGeoLevel cfg d g).1 := by
  intro d hre
  rw [processGeoLevel_eq]
  have hgoc : gocList d.geolevels (mkGlvlRow g) = d.geolevels := by
    apply gocList_eq_of_mem
    rw [hre.2.2.2.1]
    exact hrow
  have hre1 : ReplayEq d0 { d with geolevels := gocList d.geolevels (mkGlvlRow g) } :=
    ⟨hre.1, hre.2.1, hre.2.2.1, by simpa [hgoc] using hre.2.2.2.1,
      hre.2.2.2.2.1, hre.2.2.2.2.2⟩
  exact foldE_lbodies_replay cfg (mkGlvlRow g) g.lbodies hlbs _ hre1

theorem foldE_glvls_replay (cfg : Config) {d0 : DB} :
    ∀ (gs : List GeoLevelCfg),
      (∀ g ∈ gs, mkGlvlRow g ∈ d0.geolevels ∧
        ∀ lb ∈ g.lbodies, ∃ bc brow,
          cfg.bodies.find? (fun b => b.id == lb.ref) = some bc ∧
          d0.bodies.find? (fun r => r.name == bc.name) = some brow ∧
          ∀ tr ∈ lb.targets, legTargFact cfg d0 brow g.name lb tr) →
      ∀ d, ReplayEq d0 d →
        (foldE (processGeoLevel cfg) d gs).2 = none ∧
        ReplayEq d0 (foldE (processGeoLevel cfg) d gs).1 := by
  intro gs
  induction gs with
  | nil => intro _ d hre; exact ⟨rfl, hre⟩
  | cons g rest ih =>
    intro hfacts d hre
    obtain ⟨hnone, hre1⟩ := processGeoLevel_replay (hfacts g (by simp)).1
      (hfacts g (by simp)).2 d hre
    rw [foldE_cons]
    cases hstep : processGeoLevel cfg d g with
    | mk dmid e =>
      rw [hstep] at hnone hre1
      cases e with
      | some e0 => simp at hnone
      | none =>
        dsimp only
        exact ih (fun g2 h2m => hfacts g2 (by simp [h2m])) dmid hre1

theorem importAnon_replay {d0 d : DB} (hre : ReplayEq d0 d) :
    ReplayEq d0 (importAnon d) := by
  unfold importAnon
  split
  · exact hre
  · exact hre

/-- Pass 2: against any store that satisfies the facts (on every catalog
table), `import_prereq` runs without error and leaves every catalog table
unchanged (the defaults table keeps its body column). -/
theorem prereq_replay {cfg : Config} {d0 : DB} (hf : PrereqFacts cfg d0) :
    ∀ d, ReplayEq d0 d →
      (importPrereq cfg d).2 = none ∧ ReplayEq d0 (importPrereq cfg d).1 := by
  intro d hre
  have hreB : ReplayEq d0 (importSubjects cfg (importBodies cfg d)) :=
    importSubjects_replay hf.2.1 (importBodies_replay hf.1 hre)
  obtain ⟨hn1, hre1⟩ := foldE_targets_replay cfg cfg.targets hf.2.2.1
    (importSubjects cfg (importBodies cfg d)) hreB
  unfold importPrereq
  cases h1 : foldE (processTarget cfg) (importSubjects cfg (importBodies cfg d))
      cfg.targets with
  | mk db2 e2 =>
    rw [h1] at hn1 hre1
    cases e2 with
    | some e => simp at hn1
    | none =>
      obtain ⟨hn2, hre2⟩ := foldE_glvls_replay cfg cfg.geolevels hf.2.2.2 db2 hre1
      cases h2 : foldE (processGeoLevel cfg) db2 cfg.geolevels with
      | mk db3 e3 =>
        rw [h2] at hn2 hre2
        cases e3 with
        | some e => simp at hn2
        | none =>
          dsimp only
          rw [h2]
          dsimp only
          exact ⟨rfl, importAnon_replay hre2⟩

/-! ### The anonymous-user step -/

theorem importAnon_users_new {db : DB} (h : ∀ u ∈ db.users, u.username ≠ "anonymous") :
    (importAnon db).users = db.users ++ [⟨"anonymous", none⟩] := by
  unfold importAnon
  have hany : (db.users.any fun u => u.username == "anonymous") = false := by
    rw [List.any_eq_false]
    intro u hu
    simpa using h u hu
  rw [hany]
  simp

theorem importAnon_users_reset {db : DB} (h : ∃ u ∈ db.users, u.username = "anonymous") :
    (∃ u ∈ (importAnon db).users, u.username = "anonymous") ∧
    ∀ u ∈ (importAnon db).users, u.username = "anonymous" → u.password = some "anonymous" := by
  obtain ⟨u0, hu0, hname⟩ := h
  unfold importAnon
  have hany : (db.users.any fun u => u.username == "anonymous") = true :=
    List.any_eq_true.2 ⟨u0, hu0, by simpa using hname⟩
  rw [hany]
  simp only [if_true]
  constructor
  · refine ⟨{ u0 with password := some "anonymous" }, ?_, ?_⟩
    · refine List.mem_map.2 ⟨u0, hu0, ?_⟩
      simp [hname]
    · exact hname
  · intro u hu hn
    obtain ⟨v, hv, hveq⟩ := List.mem_map.1 hu
    by_cases hcase : v.username = "anonymous"
    · rw [← hveq]
      simp [hcase]
    · rw [← hveq] at hn ⊢
      simp only [show (v.username == "anonymous") = false by simpa using hcase,
        Bool.false_eq_true, if_false] at hn ⊢
      exact absurd hn hcase

/-- The catalog phases of `import_prereq` never touch the users table. -/
theorem prereqPhases_users (cfg : Config) (db : DB) :
    (foldE (processGeoLevel cfg)
        (foldE (processTarget cfg) (importSubjects cfg (importBodies cfg db)) cfg.targets).1
        cfg.geolevels).1.users = db.users := by
  have h1 : AuxEq db (importSubjects cfg (importBodies cfg db)) :=
    auxEq_trans (importBodies_aux cfg db) (importSubjects_aux cfg _)
  have h2 : AuxEq db (foldE (processTarget cfg) (importSubjects cfg (importBodies cfg db)) cfg.targets).1 :=
    auxEq_trans h1 (foldE_rel _ AuxEq (fun a b c => fun x y => auxEq_trans x y) auxEq_refl
      (fun s a => processTarget_aux cfg s a) cfg.targets _)
  have h3 := auxEq_trans h2 (foldE_rel _ AuxEq (fun a b c => fun x y => auxEq_trans x y) auxEq_refl
      (fun s a => processGeoLevel_aux cfg s a) cfg.geolevels _)
  exact h3.1

/-! ## Claim C10 -/

/-- C10: on a run of hierarchy reconciliation against a store with no user
named `anonymous`, the fallback user is created and its password is never
set; on a run against a store where the user already exists, its password
is reset to the literal string `anonymous`
(`anon, created = User.objects.get_or_create(username='anonymous'); if not
created: anon.set_password('anonymous'); anon.save()`). -/
theorem C10_anonymous_user (cfg : Config) (db : DB)
    (h : (importPrereq cfg db).2 = none) :
    ((∀ u ∈ db.users, u.username ≠ "anonymous") →
      (importPrereq cfg db).1.users = db.users ++ [⟨"anonymous", none⟩]) ∧
    ((∃ u ∈ db.users, u.username = "anonymous") →
      (∃ u ∈ (importPrereq cfg db).1.users, u.username = "anonymous") ∧
      ∀ u ∈ (importPrereq cfg db).1.users, u.username = "anonymous" →
        u.password = some "anonymous") := by
  obtain ⟨db2, db3, h1, h2, heq⟩ := importPrereq_none_split h
  have husers : db3.users = db.users := by
    have hs := prereqPhases_users cfg db
    rw [h1] at hs
    dsimp only at hs
    rw [h2] at hs
    exact hs
  rw [heq]
  dsimp only
  constructor
  · intro hno
    rw [importAnon_users_new (by rw [husers]; exact hno), husers]
  · intro hex
    exact importAnon_users_reset (by rw [husers]; exact hex)

/-! ## Concrete fixtures used by counterexamples and witnesses -/

/-- C9 counterexample: the claim says the Provisioning Client continues to
the next step exactly when the response status is a 2xx success.  Status
204 is a 2xx success, yet `rest_config` reports failure for it, so a
two-call sequence whose first response is 204 aborts after the first call
instead of continuing. -/
theorem C9_counterexample :
    (200 ≤ 204 ∧ 204 < 300) ∧
    restConfigOk (.status 204) = false ∧
    runProvisioning [.status 204, .status 200] = (1, false) := by
  refine ⟨⟨by decide, by decide⟩, by decide, by decide⟩

/-- C9 as amended: the Provisioning Client continues to the next step
exactly when the response status is 200 or 201 (other 2xx codes also
abort), and on the first failing call it stops having issued precisely the
calls up to and including that one, rolling none of them back. -/
theorem C9_amended_thm :
    (∀ r : RestOutcome, restConfigOk r = true ↔ (r = .status 200 ∨ r = .status 201)) ∧
    (∀ rs : List RestOutcome,
      runProvisioning rs =
        (if rs.all restConfigOk then rs.length else (rs.takeWhile restConfigOk).length + 1,
         rs.all restConfigOk)) := by
  constructor
  · intro r
    cases r with
    | status c =>
      simp only [restConfigOk, Bool.or_eq_true, beq_iff_eq]
      constructor
      · rintro (h | h)
        · exact Or.inr (by simp [h])
        · exact Or.inl (by simp [h])
      · rintro (h | h)
        · cases h; exact Or.inr rfl
        · cases h; exact Or.inl rfl
    | connFailure => simp [restConfigOk]
  · intro rs
    induction rs with
    | nil => rfl
    | cons r rs ih =>
      by_cases h : restConfigOk r = true
      · simp only [runProvisioning, h, if_true, ih, List.all_cons, List.takeWhile_cons, h,
          Bool.true_and]
        by_cases h2 : rs.all restConfigOk = true
        · simp [h2]
        · simp only [Bool.not_eq_true] at h2
          simp [h2]
      · simp only [Bool.not_eq_true] at h
        simp [runProvisioning, h, List.all_cons, List.takeWhile_cons]

/-- C10 witness: the anonymous-user theorem applied to the one-geolevel
configuration against the empty store. -/
theorem C10_witness :
    (importPrereq cfgOneLevel dbEmpty).2 = none ∧
    (((∀ u ∈ dbEmpty.users, u.username ≠ "anonymous") →
        (importPrereq cfgOneLevel dbEmpty).1.users =
          dbEmpty.users ++ [⟨"anonymous", none⟩]) ∧
      ((∃ u ∈ dbEmpty.users, u.username = "anonymous") →
        (∃ u ∈ (importPrereq cfgOneLevel dbEmpty).1.users, u.username = "anonymous") ∧
        ∀ u ∈ (importPrereq cfgOneLevel dbEmpty).1.users, u.username = "anonymous" →
          u.password = some "anonymous")) :=
  ⟨by decide, C10_anonymous_user cfgOneLevel dbEmpty (by decide)⟩

/-! ## Claim C2: counterexample -/

/-- C2 counterexample: the claim states that running the full pipeline a
second time against an identical configuration and shapefile creates zero
additional rows of every entity type, the already-created Geounit being
skipped.  On a one-geolevel configuration with a single square feature the
first run creates one Geounit and the second run, far from skipping it,
creates a second one: `Geounit(...).save()` in `import_shape` is an
unconditional insert with no lookup by natural key. -/
theorem C2_counterexample :
    (runPipeline simplifyId noSaveFailure cfgOneLevel [[featSquare]] dbEmpty).2 = none ∧
    (runPipeline simplifyId noSaveFailure cfgOneLevel [[featSquare]]
        dbEmpty).1.db.geounits.length = 1 ∧
    (runPipeline simplifyId noSaveFailure cfgOneLevel [[featSquare]]
        (runPipeline simplifyId noSaveFailure cfgOneLevel [[featSquare]] dbEmpty).1.db).2 =
      none ∧
    (runPipeline simplifyId noSaveFailure cfgOneLevel [[featSquare]]
        (runPipeline simplifyId noSaveFailure cfgOneLevel [[featSquare]]
          dbEmpty).1.db).1.db.geounits.length = 2 := by
  refine ⟨by decide, by decide, by decide, by decide⟩

/-! ## Claim C3: counterexample -/

/-- C3 counterexample: the claim states that a failure to parse or quantize
a raw attribute value is recovered by persisting a zero-value
Characteristic and is never fatal to the batch.  A feature whose `POP`
attribute is the unparseable string `"abc"` instead raises out of
`import_shape` (the `Decimal(...).quantize(...)` expression sits outside
the `try` block): the run ends with an uncaught exception, no
Characteristic row — zero-valued or otherwise — is persisted, and only the
already-saved Geounit remains. -/
theorem C3_counterexample :
    (runPipeline simplifyId noSaveFailure cfgOneSubject [[featBadPop]] dbEmpty).2 =
      some (.imp (.charFailure 0 "POP")) ∧
    (runPipeline simplifyId noSaveFailure cfgOneSubject [[featBadPop]]
        dbEmpty).1.db.characteristics = [] ∧
    (runPipeline simplifyId noSaveFailure cfgOneSubject [[featBadPop]]
        dbEmpty).1.db.geounits.length = 1 := by
  refine ⟨by decide, by decide, by decide⟩

/-! ## Claim C4: counterexample -/

/-- C4 counterexample: the claim states that whenever the computed centroid
lies outside a multipolygon, the repaired centroid lies inside the
geometry.  For `mpShelf` the computed centroid `(33/2, 201/14)` is outside
(so the repair runs), and the repair — the centroid of the intersection of
the horizontal segment spanning the first polygon's x-extent at that
polygon's centroid latitude — produces `(2, 0)`, a point on the first
polygon's boundary, which is *not* within the geometry. -/
theorem C4_counterexample :
    withinMulti (multiCentroid mpShelf) mpShelf = false ∧
    ((processGeom simplifyId (.multi mpShelf)).toOption.map fun t =>
        decide (t.1 = mpShelf) && decide (t.2.1 = mpShelf) &&
        Frac.beq t.2.2.x 2 && Frac.beq t.2.2.y 0 && !withinMulti t.2.2 mpShelf) =
      some true := by
  refine ⟨by decide, by decide⟩

/-! ## Claim C6 -/

/-- When the target resolves but the parent geolevel's legislative level has
not been created, the legislative-target step raises out of the parent
lookup and leaves the levels table untouched. -/
theorem processLegTarget_missing_parent (cfg : Config) (brow : LegislativeBodyRow)
    (grow : GeolevelRow) (lb : LBodyRef) (db : DB) (tr : LegTargetRef)
    (tc : TargetCfg) (sc : SubjectCfg) (srow : SubjectRow) (trow : TargetRow)
    (pid : String) (pcfg : GeoLevelCfg)
    (h1 : findTargetCfg cfg tr.ref = some tc)
    (h2 : resolveSubjectCfg cfg tc.subjectref = some sc)
    (h3 : db.subjects.find? (fun r => r.name == sc.id) = some srow)
    (h4 : db.targets.find? (fun r => r.subject == srow.name && r.value == tc.value &&
            r.range1 == tc.range1 && r.range2 == tc.range2) = some trow)
    (hp : lb.parent = some pid)
    (hpcfg : cfg.geolevels.find? (fun g => g.id == pid) = some pcfg)
    (hnolevel : db.levels.find? (fun r =>
        r.legislative_body == brow.name && r.geolevel == pcfg.name &&
        r.target == trow) = none) :
    ∃ err, (err = PrereqError.missingGeolevelRow pcfg.name ∨
        err = PrereqError.missingParentLevel brow.name pcfg.name) ∧
      processLegTarget cfg brow grow lb db tr =
        ((if tr.default.isSome then setDefault db brow.name trow else db), some err) := by
  have hgl1 : (if tr.default.isSome then setDefault db brow.name trow else db).geolevels =
      db.geolevels := by
    split <;> rfl
  have hlev1 : (if tr.default.isSome then setDefault db brow.name trow else db).levels =
      db.levels := by
    split <;> rfl
  unfold processLegTarget
  simp only [h1, h2, h3, h4]
  unfold finishLegTarget resolveParent
  simp only [hp, hpcfg, hgl1, hlev1]
  cases hfind : db.geolevels.find? fun r => r.name == pcfg.name with
  | none => exact ⟨.missingGeolevelRow pcfg.name, Or.inl rfl, rfl⟩
  | some plvl =>
    have hname : plvl.name = pcfg.name := by
      simpa using List.find?_some hfind
    dsimp only
    rw [hname, hnolevel]
    exact ⟨.missingParentLevel brow.name pcfg.name, Or.inr rfl, rfl⟩

/-- C6: a `LegislativeLevel` whose configured parent geolevel has not yet
been processed for the same legislative body and target fails with a
missing-parent error (either the parent `Geolevel` row or the parent
`LegislativeLevel` row is missing, depending on whether the parent geolevel
itself was already created); the error is fatal to the reconciler step —
the remaining legislative targets are not processed — and the level is
never silently created: the levels table is exactly as before. -/
theorem C6_missing_parent_fatal (cfg : Config) (brow : LegislativeBodyRow)
    (grow : GeolevelRow) (lb : LBodyRef) (db : DB) (tr : LegTargetRef)
    (rest : List LegTargetRef) (tc : TargetCfg) (sc : SubjectCfg) (srow : SubjectRow)
    (trow : TargetRow) (pid : String) (pcfg : GeoLevelCfg)
    (h1 : findTargetCfg cfg tr.ref = some tc)
    (h2 : resolveSubjectCfg cfg tc.subjectref = some sc)
    (h3 : db.subjects.find? (fun r => r.name == sc.id) = some srow)
    (h4 : db.targets.find? (fun r => r.subject == srow.name && r.value == tc.value &&
            r.range1 == tc.range1 && r.range2 == tc.range2) = some trow)
    (hp : lb.parent = some pid)
    (hpcfg : cfg.geolevels.find? (fun g => g.id == pid) = some pcfg)
    (hnolevel : db.levels.find? (fun r =>
        r.legislative_body == brow.name && r.geolevel == pcfg.name &&
        r.target == trow) = none) :
    ((processLegTarget cfg brow grow lb db tr).2 =
        some (PrereqError.missingGeolevelRow pcfg.name) ∨
      (processLegTarget cfg brow grow lb db tr).2 =
        some (PrereqError.missingParentLevel brow.name pcfg.name)) ∧
    (processLegTarget cfg brow grow lb db tr).1.levels = db.levels ∧
    foldE (processLegTarget cfg brow grow lb) db (tr :: rest) =
      processLegTarget cfg brow grow lb db tr := by
  obtain ⟨err, herr, heq⟩ := processLegTarget_missing_parent cfg brow grow lb db tr tc sc
    srow trow pid pcfg h1 h2 h3 h4 hp hpcfg hnolevel
  have hlev1 : (if tr.default.isSome then setDefault db brow.name trow else db).levels =
      db.levels := by
    split <;> rfl
  refine ⟨?_, ?_, ?_⟩
  · rw [heq]
    rcases herr with h | h
    · exact Or.inl (by rw [h])
    · exact Or.inr (by rw [h])
  · rw [heq]
    exact hlev1
  · rw [foldE_cons, heq]

/-- C6 witness: processing geolevel `g1`'s legislative target under `cfgC6`
against `dbC6` — where parent `g2` has not been processed — raises a
missing-parent error, creates no level, and processes no further target. -/
theorem C6_witness :
    ((processLegTarget cfgC6 ⟨"house", "H", "10"⟩ ⟨"county", "1", "1"⟩
          ⟨"b1", [⟨"t1", none⟩], some "g2"⟩ dbC6 ⟨"t1", none⟩).2 =
        some (PrereqError.missingGeolevelRow "state") ∨
      (processLegTarget cfgC6 ⟨"house", "H", "10"⟩ ⟨"county", "1", "1"⟩
          ⟨"b1", [⟨"t1", none⟩], some "g2"⟩ dbC6 ⟨"t1", none⟩).2 =
        some (PrereqError.missingParentLevel "house" "state")) ∧
    (processLegTarget cfgC6 ⟨"house", "H", "10"⟩ ⟨"county", "1", "1"⟩
        ⟨"b1", [⟨"t1", none⟩], some "g2"⟩ dbC6 ⟨"t1", none⟩).1.levels = dbC6.levels ∧
    foldE (processLegTarget cfgC6 ⟨"house", "H", "10"⟩ ⟨"county", "1", "1"⟩
        ⟨"b1", [⟨"t1", none⟩], some "g2"⟩) dbC6 [⟨"t1", none⟩] =
      processLegTarget cfgC6 ⟨"house", "H", "10"⟩ ⟨"county", "1", "1"⟩
        ⟨"b1", [⟨"t1", none⟩], some "g2"⟩ dbC6 ⟨"t1", none⟩ :=
  C6_missing_parent_fatal cfgC6 ⟨"house", "H", "10"⟩ ⟨"county", "1", "1"⟩
    ⟨"b1", [⟨"t1", none⟩], some "g2"⟩ dbC6 ⟨"t1", none⟩ []
    ⟨"t1", "s1", "0", "", ""⟩ ⟨"s1", "Pop", "P", "true", "1", none, "POP"⟩
    ⟨"s1", "Pop", "P", true, "1"⟩ ⟨"s1", "0", "", ""⟩ "g2"
    ⟨"g2", "state", "1", "2", "g.shp", "NAME", none, []⟩
    (by decide) (by decide) (by decide) (by decide) (by decide) (by decide) (by decide)

/-! ## Claim C8 -/

/-- C8: running hierarchy reconciliation a second time against an identical
configuration creates zero additional rows of any catalog entity type: the
second run succeeds, leaves the LegislativeBody, Subject, Target, GeoLevel
and LegislativeLevel tables exactly as the first run left them, and the
LegislativeDefaults table keeps its row count (its target column is
re-overwritten in place). -/
theorem C8_prereq_idempotent (cfg : Config) (db : DB)
    (h : (importPrereq cfg db).2 = none) :
    (importPrereq cfg (importPrereq cfg db).1).2 = none ∧
    (importPrereq cfg (importPrereq cfg db).1).1.bodies = (importPrereq cfg db).1.bodies ∧
    (importPrereq cfg (importPrereq cfg db).1).1.subjects = (importPrereq cfg db).1.subjects ∧
    (importPrereq cfg (importPrereq cfg db).1).1.targets = (importPrereq cfg db).1.targets ∧
    (importPrereq cfg (importPrereq cfg db).1).1.geolevels = (importPrereq cfg db).1.geolevels ∧
    (importPrereq cfg (importPrereq cfg db).1).1.levels = (importPrereq cfg db).1.levels ∧
    (importPrereq cfg (importPrereq cfg db).1).1.defaults.length =
      (importPrereq cfg db).1.defaults.length := by
  have hrun : importPrereq cfg db = ((importPrereq cfg db).1, none) := by
    rw [← h]
  have hfacts := prereq_establish hrun
  have hreplay := prereq_replay hfacts (importPrereq cfg db).1
    ⟨rfl, rfl, rfl, rfl, rfl, rfl⟩
  refine ⟨hreplay.1, hreplay.2.1, hreplay.2.2.1, hreplay.2.2.2.1,
    hreplay.2.2.2.2.1, hreplay.2.2.2.2.2.1, ?_⟩
  have hdb := hreplay.2.2.2.2.2.2
  have := congrArg List.length hdb
  simpa [defBodies] using this

/-- C8 witness: reconciling `cfgC8` into the empty store succeeds, and the
theorem applies to the result of that first run. -/
theorem C8_witness :
    (importPrereq cfgC8 dbEmpty).2 = none ∧
    ((importPrereq cfgC8 (importPrereq cfgC8 dbEmpty).1).2 = none ∧
      (importPrereq cfgC8 (importPrereq cfgC8 dbEmpty).1).1.bodies =
        (importPrereq cfgC8 dbEmpty).1.bodies ∧
      (importPrereq cfgC8 (importPrereq cfgC8 dbEmpty).1).1.subjects =
        (importPrereq cfgC8 dbEmpty).1.subjects ∧
      (importPrereq cfgC8 (importPrereq cfgC8 dbEmpty).1).1.targets =
        (importPrereq cfgC8 dbEmpty).1.targets ∧
      (importPrereq cfgC8 (importPrereq cfgC8 dbEmpty).1).1.geolevels =
        (importPrereq cfgC8 dbEmpty).1.geolevels ∧
      (importPrereq cfgC8 (importPrereq cfgC8 dbEmpty).1).1.levels =
        (importPrereq cfgC8 dbEmpty).1.levels ∧
      (importPrereq cfgC8 (importPrereq cfgC8 dbEmpty).1).1.defaults.length =
        (importPrereq cfgC8 dbEmpty).1.defaults.length) :=
  ⟨by decide, C8_prereq_idempotent cfgC8 dbEmpty (by decide)⟩

/-- Membership after a `get_or_create` fold comes from the initial table or
from the folded rows. -/
theorem foldl_goc_mem_inv {ρ : Type} [DecidableEq ρ] {rs : List ρ} :
    ∀ {l : List ρ} {a : ρ}, a ∈ rs.foldl gocList l → a ∈ l ∨ a ∈ rs := by
  induction rs with
  | nil => exact fun h => Or.inl h
  | cons b bs ih =>
    intro l a h
    rw [List.foldl_cons] at h
    rcases ih h with h | h
    · unfold gocList at h
      split at h
      · exact Or.inl h
      · rcases List.mem_append.1 h with h | h
        · exact Or.inl h
        · simp only [List.mem_singleton] at h
          subst h
          exact Or.inr (by simp)
    · exact Or.inr (by simp [h])

/-! ## Claim C7 -/

/-- C7: for a subject declared with `aliasfor`, (1) the subject import step
never creates an independent Subject row under the alias id; (2) a target
whose `subjectref` names the alias is stored against the canonical subject;
(3) the per-geolevel field configuration resolves the alias to the
canonical subject id, and (4) the `subject_objects` binding used by the
characteristic loop binds the shapefile field to the canonical Subject
row's name. -/
theorem C7_alias_resolution (cfg : Config) (db : DB) (t : TargetCfg)
    (s sa : SubjectCfg) (a tid : String) (tc : TargetCfg)
    (hs : cfg.subjects.find? (fun x => x.id == t.subjectref) = some s)
    (ha : s.aliasfor = some a)
    (hsa : cfg.subjects.find? (fun x => x.id == a) = some sa)
    (hnodup : ∀ x ∈ cfg.subjects, x.aliasfor = none → x.id ≠ s.id)
    (hclean : ∀ r ∈ db.subjects, r.name ≠ s.id)
    (htc : findTargetCfg cfg tid = some tc)
    (htr : tc.subjectref = t.subjectref) :
    (∀ r ∈ (importSubjects cfg db).subjects, r.name ≠ s.id) ∧
    (∀ srow, db.subjects.find? (fun r => r.name == sa.id) = some srow →
      processTarget cfg db t =
        ({ db with targets := gocList db.targets ⟨sa.id, t.value, t.range1, t.range2⟩ },
         none)) ∧
    mkSubjectField cfg tid = .ok ⟨s.field, s.id, some sa.id⟩ ∧
    (∀ srow, db.subjects.find? (fun r => r.name == sa.id) = some srow →
      buildSubjObjs db [⟨s.field, s.id, some sa.id⟩] = .ok [(s.field, sa.id)]) := by
  have hres : resolveSubjectCfg cfg t.subjectref = some sa := by
    unfold resolveSubjectCfg
    rw [hs]
    dsimp only
    rw [ha]
    exact hsa
  refine ⟨?_, ?_, ?_, ?_⟩
  · intro r hr
    have hr2 : r ∈ ((cfg.subjects.filter fun x => x.aliasfor.isNone).map
        mkSubjectRow).foldl gocList db.subjects := hr
    rcases foldl_goc_mem_inv hr2 with h | h
    · exact hclean r h
    · obtain ⟨x, hxm, hxe⟩ := List.mem_map.1 h
      obtain ⟨hxc, hal⟩ := List.mem_filter.1 hxm
      have hxn : x.aliasfor = none := by
        cases hx : x.aliasfor
        · rfl
        · rw [hx] at hal; simp at hal
      rw [← hxe]
      exact hnodup x hxc hxn
  · intro srow hrow
    have hname : srow.name = sa.id := by
      have := List.find?_some hrow
      simpa using this
    unfold processTarget
    rw [hres]
    dsimp only
    rw [hrow]
    dsimp only
    rw [hname]
  · unfold mkSubjectField
    rw [htc]
    dsimp only
    rw [htr, hs]
    dsimp only
    rw [ha]
    dsimp only
    rw [hsa]
  · intro srow hrow
    have hname : srow.name = sa.id := by
      have := List.find?_some hrow
      simpa using this
    unfold buildSubjObjs buildSubjObjsGo
    have hrs : (db.subjects.find? fun r =>
        r.name == resolvedSid ⟨s.field, s.id, some sa.id⟩) = some srow := hrow
    rw [hrs]
    dsimp only
    unfold buildSubjObjsGo
    rw [hname]
    rfl

/-- C7 witness: the alias subject `s2` of `cfgC8`, aliased to `s1`, with
the canonical row already stored. -/
theorem C7_witness :
    (cfgC8.subjects.find? (fun x => x.id == tC7.subjectref) = some sC7 ∧
      sC7.aliasfor = some "s1" ∧
      cfgC8.subjects.find? (fun x => x.id == "s1") = some saC7 ∧
      (∀ x ∈ cfgC8.subjects, x.aliasfor = none → x.id ≠ sC7.id) ∧
      (∀ r ∈ dbC7.subjects, r.name ≠ sC7.id) ∧
      findTargetCfg cfgC8 "t1" = some tC7 ∧
      tC7.subjectref = tC7.subjectref) ∧
    ((∀ r ∈ (importSubjects cfgC8 dbC7).subjects, r.name ≠ sC7.id) ∧
      (∀ srow, dbC7.subjects.find? (fun r => r.name == saC7.id) = some srow →
        processTarget cfgC8 dbC7 tC7 =
          ({ dbC7 with targets := gocList dbC7.targets ⟨saC7.id, tC7.value, tC7.range1, tC7.range2⟩ },
           none)) ∧
      mkSubjectField cfgC8 "t1" = .ok ⟨sC7.field, sC7.id, some saC7.id⟩ ∧
      (∀ srow, dbC7.subjects.find? (fun r => r.name == saC7.id) = some srow →
        buildSubjObjs dbC7 [⟨sC7.field, sC7.id, some saC7.id⟩] =
          .ok [(sC7.field, saC7.id)])) :=
  ⟨by decide,
   C7_alias_resolution cfgC8 dbC7 tC7 sC7 saC7 "s1" "t1" tC7 (by decide) (by decide)
     (by decide) (by decide) (by decide) (by decide) (by decide)⟩

/-- A non-fatal pipeline run decomposes into a non-fatal reconciliation and
a non-fatal geolevel-import loop. -/
theorem runPipeline_none_inv {simplifyFn : List Poly → RawGeom} {saveFails : Int → Bool}
    {cfg : Config} {shp : List (List Feature)} {db : DB}
    (h : (runPipeline simplifyFn saveFails cfg shp db).2 = none) :
    ∃ d1, importPrereq cfg db = (d1, none) ∧
      (runLevels simplifyFn saveFails cfg ⟨d1, [], []⟩ (cfg.geolevels.zip shp)).2 = none ∧
      runPipeline simplifyFn saveFails cfg shp db =
        ((runLevels simplifyFn saveFails cfg ⟨d1, [], []⟩ (cfg.geolevels.zip shp)).1, none) := by
  unfold runPipeline at h
  rcases hp : importPrereq cfg db with ⟨d1, e1⟩
  rw [hp] at h
  cases e1 with
  | some e =>
    dsimp only at h
    exact absurd h (by simp)
  | none =>
    dsimp only at h
    rcases hr : runLevels simplifyFn saveFails cfg ⟨d1, [], []⟩ (cfg.geolevels.zip shp)
      with ⟨st, e2⟩
    rw [hr] at h
    cases e2 with
    | some e =>
      dsimp only at h
      exact absurd h (by simp)
    | none =>
      refine ⟨d1, rfl, by rw [hr], ?_⟩
      unfold runPipeline
      rw [hp]
      dsimp only
      rw [hr]

/-- A successful reconciliation never touches the Geounit table. -/
theorem importPrereq_geounits_ok {cfg : Config} {db d1 : DB}
    (h : importPrereq cfg db = (d1, none)) : d1.geounits = db.geounits := by
  obtain ⟨db2, db3, h1, h2, heq⟩ := importPrereq_none_split (by rw [h])
  have hd1 : d1 = importAnon db3 := by
    rw [h] at heq
    exact congrArg Prod.fst heq
  have a2 : AuxEq db db2 := by
    have e := auxEq_trans (auxEq_trans (importBodies_aux cfg db) (importSubjects_aux cfg _))
      (foldE_rel (processTarget cfg) AuxEq (fun a b c x y => auxEq_trans x y) auxEq_refl
        (fun s a => processTarget_aux cfg s a) cfg.targets _)
    rw [h1] at e
    exact e
  have a3 : AuxEq db2 db3 := by
    have e := foldE_rel (processGeoLevel cfg) AuxEq (fun a b c x y => auxEq_trans x y) auxEq_refl
      (fun s a => processGeoLevel_aux cfg s a) cfg.geolevels db2
    rw [h2] at e
    exact e
  have g4 : (importAnon db3).geounits = db3.geounits := by
    unfold importAnon
    split
    · rfl
    · rfl
  rw [hd1, g4, a3.2.1, a2.2.1]

/-! ## Claim C2 -/

/-- C2 (amended): re-running the full pipeline against an identical
configuration and identical shapefiles creates zero additional rows of the
catalog entity types — the second run succeeds with the LegislativeBody,
Subject, Target, GeoLevel and LegislativeLevel tables unchanged and the
LegislativeDefaults row count unchanged — but an already-created Geounit is
NOT skipped: the second run appends exactly as many new Geounit rows as the
first run did, because `Geounit(...).save()` is an unconditional insert
with no lookup by natural key. -/
theorem C2_amended_thm (simplifyFn : List Poly → RawGeom) (saveFails : Int → Bool)
    (cfg : Config) (shp : List (List Feature)) (db : DB)
    (h : (runPipeline simplifyFn saveFails cfg shp db).2 = none) :
    (runPipeline simplifyFn saveFails cfg shp (runPipeline simplifyFn saveFails cfg shp db).1.db).2 = none ∧
    (runPipeline simplifyFn saveFails cfg shp (runPipeline simplifyFn saveFails cfg shp db).1.db).1.db.bodies = (runPipeline simplifyFn saveFails cfg shp db).1.db.bodies ∧
    (runPipeline simplifyFn saveFails cfg shp (runPipeline simplifyFn saveFails cfg shp db).1.db).1.db.subjects = (runPipeline simplifyFn saveFails cfg shp db).1.db.subjects ∧
    (runPipeline simplifyFn saveFails cfg shp (runPipeline simplifyFn saveFails cfg shp db).1.db).1.db.targets = (runPipeline simplifyFn saveFails cfg shp db).1.db.targets ∧
    (runPipeline simplifyFn saveFails cfg shp (runPipeline simplifyFn saveFails cfg shp db).1.db).1.db.geolevels = (runPipeline simplifyFn saveFails cfg shp db).1.db.geolevels ∧
    (runPipeline simplifyFn saveFails cfg shp (runPipeline simplifyFn saveFails cfg shp db).1.db).1.db.levels = (runPipeline simplifyFn saveFails cfg shp db).1.db.levels ∧
    (runPipeline simplifyFn saveFails cfg shp (runPipeline simplifyFn saveFails cfg shp db).1.db).1.db.defaults.length = (runPipeline simplifyFn saveFails cfg shp db).1.db.defaults.length ∧
    (runPipeline simplifyFn saveFails cfg shp (runPipeline simplifyFn saveFails cfg shp db).1.db).1.db.geounits.length + db.geounits.length =
      (runPipeline simplifyFn saveFails cfg shp db).1.db.geounits.length + (runPipeline simplifyFn saveFails cfg shp db).1.db.geounits.length := by
  obtain ⟨d1, hp, hrl, hpipe⟩ := runPipeline_none_inv h
  rw [hpipe]
  dsimp only
  have hframe := runLevels_frame simplifyFn saveFails cfg (cfg.geolevels.zip shp) ⟨d1, [], []⟩
  have hfb : (runLevels simplifyFn saveFails cfg ⟨d1, [], []⟩ (cfg.geolevels.zip shp)).1.db.bodies = d1.bodies := hframe.1
  have hfs : (runLevels simplifyFn saveFails cfg ⟨d1, [], []⟩ (cfg.geolevels.zip shp)).1.db.subjects = d1.subjects := hframe.2.1
  have hft : (runLevels simplifyFn saveFails cfg ⟨d1, [], []⟩ (cfg.geolevels.zip shp)).1.db.targets = d1.targets := hframe.2.2.1
  have hfg : (runLevels simplifyFn saveFails cfg ⟨d1, [], []⟩ (cfg.geolevels.zip shp)).1.db.geolevels = d1.geolevels := hframe.2.2.2.1
  have hfl : (runLevels simplifyFn saveFails cfg ⟨d1, [], []⟩ (cfg.geolevels.zip shp)).1.db.levels = d1.levels := hframe.2.2.2.2.1
  have hfd : (runLevels simplifyFn saveFails cfg ⟨d1, [], []⟩ (cfg.geolevels.zip shp)).1.db.defaults = d1.defaults := hframe.2.2.2.2.2.1
  have hfacts := prereq_establish hp
  have hre1 : ReplayEq d1 (runLevels simplifyFn saveFails cfg ⟨d1, [], []⟩ (cfg.geolevels.zip shp)).1.db := by
    refine ⟨hfb, hfs, hft, hfg, hfl, ?_⟩
    unfold defBodies
    rw [hfd]
  have hrep := prereq_replay hfacts (runLevels simplifyFn saveFails cfg ⟨d1, [], []⟩ (cfg.geolevels.zip shp)).1.db hre1
  have hp2 : importPrereq cfg (runLevels simplifyFn saveFails cfg ⟨d1, [], []⟩ (cfg.geolevels.zip shp)).1.db = ((importPrereq cfg (runLevels simplifyFn saveFails cfg ⟨d1, [], []⟩ (cfg.geolevels.zip shp)).1.db).1, none) := by
    rw [← hrep.1]
  have himpEq : ImpEq (⟨d1, [], []⟩ : ImportState) ⟨(importPrereq cfg (runLevels simplifyFn saveFails cfg ⟨d1, [], []⟩ (cfg.geolevels.zip shp)).1.db).1, [], []⟩ :=
    ⟨hrep.2.2.1, hrep.2.2.2.2.1⟩
  have hreplay := runLevels_replay simplifyFn saveFails cfg (cfg.geolevels.zip shp)
    ⟨d1, [], []⟩ ⟨(importPrereq cfg (runLevels simplifyFn saveFails cfg ⟨d1, [], []⟩ (cfg.geolevels.zip shp)).1.db).1, [], []⟩ hrl himpEq
  have hL2 : (runLevels simplifyFn saveFails cfg ⟨(importPrereq cfg (runLevels simplifyFn saveFails cfg ⟨d1, [], []⟩ (cfg.geolevels.zip shp)).1.db).1, [], []⟩ (cfg.geolevels.zip shp)) = ((runLevels simplifyFn saveFails cfg ⟨(importPrereq cfg (runLevels simplifyFn saveFails cfg ⟨d1, [], []⟩ (cfg.geolevels.zip shp)).1.db).1, [], []⟩ (cfg.geolevels.zip shp)).1, none) := by
    rw [← hreplay.1]
  have hrun2 : runPipeline simplifyFn saveFails cfg shp (runLevels simplifyFn saveFails cfg ⟨d1, [], []⟩ (cfg.geolevels.zip shp)).1.db = ((runLevels simplifyFn saveFails cfg ⟨(importPrereq cfg (runLevels simplifyFn saveFails cfg ⟨d1, [], []⟩ (cfg.geolevels.zip shp)).1.db).1, [], []⟩ (cfg.geolevels.zip shp)).1, none) := by
    unfold runPipeline
    rw [hp2]
    dsimp only
    rw [hL2]
  rw [hrun2]
  dsimp only
  have hframe2 := runLevels_frame simplifyFn saveFails cfg (cfg.geolevels.zip shp)
    ⟨(importPrereq cfg (runLevels simplifyFn saveFails cfg ⟨d1, [], []⟩ (cfg.geolevels.zip shp)).1.db).1, [], []⟩
  have h2b : (runLevels simplifyFn saveFails cfg ⟨(importPrereq cfg (runLevels simplifyFn saveFails cfg ⟨d1, [], []⟩ (cfg.geolevels.zip shp)).1.db).1, [], []⟩ (cfg.geolevels.zip shp)).1.db.bodies = (importPrereq cfg (runLevels simplifyFn saveFails cfg ⟨d1, [], []⟩ (cfg.geolevels.zip shp)).1.db).1.bodies := hframe2.1
  have h2s : (runLevels simplifyFn saveFails cfg ⟨(importPrereq cfg (runLevels simplifyFn saveFails cfg ⟨d1, [], []⟩ (cfg.geolevels.zip shp)).1.db).1, [], []⟩ (cfg.geolevels.zip shp)).1.db.subjects = (importPrereq cfg (runLevels simplifyFn saveFails cfg ⟨d1, [], []⟩ (cfg.geolevels.zip shp)).1.db).1.subjects := hframe2.2.1
  have h2t : (runLevels simplifyFn saveFails cfg ⟨(importPrereq cfg (runLevels simplifyFn saveFails cfg ⟨d1, [], []⟩ (cfg.geolevels.zip shp)).1.db).1, [], []⟩ (cfg.geolevels.zip shp)).1.db.targets = (importPrereq cfg (runLevels simplifyFn saveFails cfg ⟨d1, [], []⟩ (cfg.geolevels.zip shp)).1.db).1.targets := hframe2.2.2.1
  have h2g : (runLevels simplifyFn saveFails cfg ⟨(importPrereq cfg (runLevels simplifyFn saveFails cfg ⟨d1, [], []⟩ (cfg.geolevels.zip shp)).1.db).1, [], []⟩ (cfg.geolevels.zip shp)).1.db.geolevels = (importPrereq cfg (runLevels simplifyFn saveFails cfg ⟨d1, [], []⟩ (cfg.geolevels.zip shp)).1.db).1.geolevels := hframe2.2.2.2.1
  have h2l : (runLevels simplifyFn saveFails cfg ⟨(importPrereq cfg (runLevels simplifyFn saveFails cfg ⟨d1, [], []⟩ (cfg.geolevels.zip shp)).1.db).1, [], []⟩ (cfg.geolevels.zip shp)).1.db.levels = (importPrereq cfg (runLevels simplifyFn saveFails cfg ⟨d1, [], []⟩ (cfg.geolevels.zip shp)).1.db).1.levels := hframe2.2.2.2.2.1
  have h2d : (runLevels simplifyFn saveFails cfg ⟨(importPrereq cfg (runLevels simplifyFn saveFails cfg ⟨d1, [], []⟩ (cfg.geolevels.zip shp)).1.db).1, [], []⟩ (cfg.geolevels.zip shp)).1.db.defaults = (importPrereq cfg (runLevels simplifyFn saveFails cfg ⟨d1, [], []⟩ (cfg.geolevels.zip shp)).1.db).1.defaults := hframe2.2.2.2.2.2.1
  refine ⟨rfl, ?_, ?_, ?_, ?_, ?_, ?_, ?_⟩
  · rw [h2b, hrep.2.1, hfb]
  · rw [h2s, hrep.2.2.1, hfs]
  · rw [h2t, hrep.2.2.2.1, hft]
  · rw [h2g, hrep.2.2.2.2.1, hfg]
  · rw [h2l, hrep.2.2.2.2.2.1, hfl]
  · rw [h2d, hfd]
    have hdefB : defBodies (importPrereq cfg (runLevels simplifyFn saveFails cfg ⟨d1, [], []⟩ (cfg.geolevels.zip shp)).1.db).1 = defBodies d1 := hrep.2.2.2.2.2.2
    have := congrArg List.length hdefB
    simpa [defBodies] using this
  · have hlen : (runLevels simplifyFn saveFails cfg ⟨(importPrereq cfg (runLevels simplifyFn saveFails cfg ⟨d1, [], []⟩ (cfg.geolevels.zip shp)).1.db).1, [], []⟩ (cfg.geolevels.zip shp)).1.db.geounits.length + d1.geounits.length =
        (runLevels simplifyFn saveFails cfg ⟨d1, [], []⟩ (cfg.geolevels.zip shp)).1.db.geounits.length + (importPrereq cfg (runLevels simplifyFn saveFails cfg ⟨d1, [], []⟩ (cfg.geolevels.zip shp)).1.db).1.geounits.length := hreplay.2.2
    have hg1 : d1.geounits = db.geounits := importPrereq_geounits_ok hp
    have hg2 : (importPrereq cfg (runLevels simplifyFn saveFails cfg ⟨d1, [], []⟩ (cfg.geolevels.zip shp)).1.db).1.geounits = (runLevels simplifyFn saveFails cfg ⟨d1, [], []⟩ (cfg.geolevels.zip shp)).1.db.geounits := importPrereq_geounits_ok hp2
    rw [hg1, hg2] at hlen
    exact hlen

/-- C2 witness: the one-geolevel, one-feature pipeline run of the
counterexample satisfies the amended statement. -/
theorem C2_amended_witness :
    (runPipeline simplifyId noSaveFailure cfgOneLevel [[featSquare]] dbEmpty).2 = none ∧
    ((runPipeline simplifyId noSaveFailure cfgOneLevel [[featSquare]]
        (runPipeline simplifyId noSaveFailure cfgOneLevel [[featSquare]] dbEmpty).1.db).2 =
      none ∧
    (runPipeline simplifyId noSaveFailure cfgOneLevel [[featSquare]]
        (runPipeline simplifyId noSaveFailure cfgOneLevel [[featSquare]] dbEmpty).1.db).1.db.bodies =
      (runPipeline simplifyId noSaveFailure cfgOneLevel [[featSquare]] dbEmpty).1.db.bodies ∧
    (runPipeline simplifyId noSaveFailure cfgOneLevel [[featSquare]]
        (runPipeline simplifyId noSaveFailure cfgOneLevel [[featSquare]] dbEmpty).1.db).1.db.subjects =
      (runPipeline simplifyId noSaveFailure cfgOneLevel [[featSquare]] dbEmpty).1.db.subjects ∧
    (runPipeline simplifyId noSaveFailure cfgOneLevel [[featSquare]]
        (runPipeline simplifyId noSaveFailure cfgOneLevel [[featSquare]] dbEmpty).1.db).1.db.targets =
      (runPipeline simplifyId noSaveFailure cfgOneLevel [[featSquare]] dbEmpty).1.db.targets ∧
    (runPipeline simplifyId noSaveFailure cfgOneLevel [[featSquare]]
        (runPipeline simplifyId noSaveFailure cfgOneLevel [[featSquare]] dbEmpty).1.db).1.db.geolevels =
      (runPipeline simplifyId noSaveFailure cfgOneLevel [[featSquare]] dbEmpty).1.db.geolevels ∧
    (runPipeline simplifyId noSaveFailure cfgOneLevel [[featSquare]]
        (runPipeline simplifyId noSaveFailure cfgOneLevel [[featSquare]] dbEmpty).1.db).1.db.levels =
      (runPipeline simplifyId noSaveFailure cfgOneLevel [[featSquare]] dbEmpty).1.db.levels ∧
    (runPipeline simplifyId noSaveFailure cfgOneLevel [[featSquare]]
        (runPipeline simplifyId noSaveFailure cfgOneLevel [[featSquare]] dbEmpty).1.db).1.db.defaults.length =
      (runPipeline simplifyId noSaveFailure cfgOneLevel [[featSquare]] dbEmpty).1.db.defaults.length ∧
    (runPipeline simplifyId noSaveFailure cfgOneLevel [[featSquare]]
        (runPipeline simplifyId noSaveFailure cfgOneLevel [[featSquare]] dbEmpty).1.db).1.db.geounits.length +
        dbEmpty.geounits.length =
      (runPipeline simplifyId noSaveFailure cfgOneLevel [[featSquare]] dbEmpty).1.db.geounits.length +
        (runPipeline simplifyId noSaveFailure cfgOneLevel [[featSquare]] dbEmpty).1.db.geounits.length) :=
  ⟨by decide,
   C2_amended_thm simplifyId noSaveFailure cfgOneLevel [[featSquare]] dbEmpty (by decide)⟩

/-! ## Claim C3 -/

/-- C3 (amended): in the characteristic loop of one imported feature, a
failure to SAVE a characteristic is recovered per-characteristic — when
every raw attribute value parses, the loop is non-fatal and persists, for
exactly the save-failed entries, a zero-value Characteristic while
recording the failure; but a failure to PARSE or quantize the raw value
happens outside the protected block and is an uncaught exception: the loop
aborts fatally at that entry with no zero row for it, the remaining
features of the batch are not imported, and in both cases the
already-created Geounit persists. -/
theorem C3_amended_thm (simplifyFn : List Poly → RawGeom) (saveFails : Int → Bool)
    (scfg : ShapeCfg) (st : ImportState) (f : Feature) (row : GeounitRow)
    (subjObjs pre post : List (String × String)) (a s : String) (rest : List Feature)
    (hrow : mkGeounit simplifyFn scfg f = some row)
    (ha : charValue f a = none)
    (hpre : ∀ p ∈ pre, (charValue f p.1).isSome = true) :
    ((∀ p ∈ subjObjs, (charValue f p.1).isSome = true) →
      (processFeature simplifyFn saveFails scfg subjObjs st f).2 = none ∧
      (processFeature simplifyFn saveFails scfg subjObjs st f).1.db.characteristics =
        st.db.characteristics ++ charRows saveFails f st.db.geounits.length subjObjs ∧
      (processFeature simplifyFn saveFails scfg subjObjs st f).1.charZeroed =
        st.charZeroed ++ zeroRecs saveFails f.fid f subjObjs ∧
      (processFeature simplifyFn saveFails scfg subjObjs st f).1.db.geounits =
        st.db.geounits ++ [row]) ∧
    (processFeature simplifyFn saveFails scfg (pre ++ (a, s) :: post) st f).2 =
      some (.charFailure f.fid a) ∧
    (processFeature simplifyFn saveFails scfg (pre ++ (a, s) :: post) st f).1.db.geounits =
      st.db.geounits ++ [row] ∧
    (processFeature simplifyFn saveFails scfg (pre ++ (a, s) :: post) st f).1.db.characteristics =
      st.db.characteristics ++ charRows saveFails f st.db.geounits.length pre ∧
    foldE (processFeature simplifyFn saveFails scfg (pre ++ (a, s) :: post)) st (f :: rest) =
      ((processFeature simplifyFn saveFails scfg (pre ++ (a, s) :: post) st f).1,
       some (.charFailure f.fid a)) := by
  have herr := processChars_err saveFails f.fid f st.db.geounits.length a s post ha pre
    { st with db := { st.db with geounits := st.db.geounits ++ [row] } } hpre
  have hpf2 : (processFeature simplifyFn saveFails scfg (pre ++ (a, s) :: post) st f).2 =
      some (.charFailure f.fid a) := by
    rw [processFeature_okEq hrow]
    exact herr.1
  refine ⟨?_, hpf2, ?_, ?_, ?_⟩
  · intro hall
    rw [processFeature_okEq hrow]
    have hok := processChars_ok saveFails f.fid f st.db.geounits.length subjObjs
      { st with db := { st.db with geounits := st.db.geounits ++ [row] } } hall
    have hpres := processChars_pres saveFails f.fid f st.db.geounits.length subjObjs
      { st with db := { st.db with geounits := st.db.geounits ++ [row] } }
    exact ⟨hok.1, hok.2.1, hok.2.2, hpres.2.1⟩
  · rw [processFeature_okEq hrow]
    exact herr.2.2
  · rw [processFeature_okEq hrow]
    exact herr.2.1
  · rw [foldE_cons]
    have h2 : processFeature simplifyFn saveFails scfg (pre ++ (a, s) :: post) st f =
        ((processFeature simplifyFn saveFails scfg (pre ++ (a, s) :: post) st f).1,
         some (.charFailure f.fid a)) := by
      rw [← hpf2]
    rw [h2]

/-- C3 witness: the feature whose `POP` attribute is unparseable, against
an empty subject map for the recovery half and the one-entry map
`[("POP", "s1")]` for the fatal half. -/
theorem C3_amended_witness :
    (mkGeounit simplifyId scfgOneLevel featBadPop = some rowBadPop ∧
      charValue featBadPop "POP" = none ∧
      (∀ p ∈ ([] : List (String × String)), (charValue featBadPop p.1).isSome = true)) ∧
    (((∀ p ∈ ([] : List (String × String)), (charValue featBadPop p.1).isSome = true) →
      (processFeature simplifyId noSaveFailure scfgOneLevel [] stEmptyC3 featBadPop).2 = none ∧
      (processFeature simplifyId noSaveFailure scfgOneLevel [] stEmptyC3 featBadPop).1.db.characteristics =
        stEmptyC3.db.characteristics ++
          charRows noSaveFailure featBadPop stEmptyC3.db.geounits.length [] ∧
      (processFeature simplifyId noSaveFailure scfgOneLevel [] stEmptyC3 featBadPop).1.charZeroed =
        stEmptyC3.charZeroed ++ zeroRecs noSaveFailure featBadPop.fid featBadPop [] ∧
      (processFeature simplifyId noSaveFailure scfgOneLevel [] stEmptyC3 featBadPop).1.db.geounits = stEmptyC3.db.geounits ++ [rowBadPop]) ∧
    (processFeature simplifyId noSaveFailure scfgOneLevel ([] ++ ("POP", "s1") :: []) stEmptyC3 featBadPop).2 = some (.charFailure featBadPop.fid "POP") ∧
    (processFeature simplifyId noSaveFailure scfgOneLevel ([] ++ ("POP", "s1") :: []) stEmptyC3 featBadPop).1.db.geounits = stEmptyC3.db.geounits ++ [rowBadPop] ∧
    (processFeature simplifyId noSaveFailure scfgOneLevel ([] ++ ("POP", "s1") :: []) stEmptyC3 featBadPop).1.db.characteristics =
      stEmptyC3.db.characteristics ++
        charRows noSaveFailure featBadPop stEmptyC3.db.geounits.length [] ∧
    foldE (processFeature simplifyId noSaveFailure scfgOneLevel ([] ++ ("POP", "s1") :: []))
        stEmptyC3 (featBadPop :: []) =
      ((processFeature simplifyId noSaveFailure scfgOneLevel ([] ++ ("POP", "s1") :: []) stEmptyC3 featBadPop).1, some (.charFailure featBadPop.fid "POP"))) :=
  ⟨⟨by decide, by decide, by decide⟩,
   C3_amended_thm simplifyId noSaveFailure scfgOneLevel stEmptyC3 featBadPop rowBadPop
     [] [] [] "POP" "s1" [] (by decide) (by decide) (by decide)⟩

/-! ### Frac order and membership lemmas for the repaired centroid -/

theorem frac_beq_half_self (c : Frac) : Frac.beq ((c + c) / 2) c = true := by
  simp only [Frac.beq, decide_eq_true_eq]
  show (c.num * c.den + c.num * c.den) * 1 * c.den = c.num * (c.den * c.den * 2)
  ring

theorem frac_ble_midpoint_left {a x y : Frac} (h1 : Frac.ble a x = true)
    (h2 : Frac.ble a y = true) : Frac.ble a ((x + y) / 2) = true := by
  simp only [Frac.ble, decide_eq_true_eq] at h1 h2 ⊢
  show a.num * (x.den * y.den * 2) ≤ (x.num * y.den + y.num * x.den) * 1 * a.den
  have e1 := mul_le_mul_of_nonneg_right h1 (Int.le_of_lt y.pos)
  have e2 := mul_le_mul_of_nonneg_right h2 (Int.le_of_lt x.pos)
  nlinarith [e1, e2]

theorem frac_ble_midpoint_right {x y b : Frac} (h1 : Frac.ble x b = true)
    (h2 : Frac.ble y b = true) : Frac.ble ((x + y) / 2) b = true := by
  simp only [Frac.ble, decide_eq_true_eq] at h1 h2 ⊢
  show (x.num * y.den + y.num * x.den) * 1 * b.den ≤ b.num * (x.den * y.den * 2)
  have e1 := mul_le_mul_of_nonneg_right h1 (Int.le_of_lt y.pos)
  have e2 := mul_le_mul_of_nonneg_right h2 (Int.le_of_lt x.pos)
  nlinarith [e1, e2]

theorem mem_insSorted {x z : Frac} : ∀ {l : List Frac}, z ∈ insSorted x l → z = x ∨ z ∈ l := by
  intro l
  induction l with
  | nil =>
    intro h
    simp [insSorted] at h
    exact Or.inl h
  | cons y ys ih =>
    intro h
    simp only [insSorted] at h
    by_cases h1 : Frac.beq x y = true
    · rw [if_pos h1] at h
      exact Or.inr h
    · rw [if_neg h1] at h
      by_cases h2 : Frac.blt x y = true
      · rw [if_pos h2] at h
        rcases List.mem_cons.1 h with h | h
        · exact Or.inl h
        · exact Or.inr h
      · rw [if_neg h2] at h
        rcases List.mem_cons.1 h with h | h
        · exact Or.inr (by simp [h])
        · rcases ih h with h | h
          · exact Or.inl h
          · exact Or.inr (by simp [h])

theorem mem_sortDedup {z : Frac} : ∀ {l : List Frac}, z ∈ sortDedup l → z ∈ l := by
  intro l
  induction l with
  | nil => intro h; simp [sortDedup] at h
  | cons x xs ih =>
    intro h
    have h2 : z ∈ insSorted x (sortDedup xs) := h
    rcases mem_insSorted h2 with h3 | h3
    · simp [h3]
    · exact List.mem_cons_of_mem x (ih h3)

theorem adjIntervals_mem (c : Frac) (r : Poly) :
    ∀ (l : List Frac) (i : Frac × Frac), i ∈ adjIntervals c r l → i.1 ∈ l ∧ i.2 ∈ l := by
  intro l
  induction l with
  | nil => intro i hi; simp [adjIntervals] at hi
  | cons x xs ih =>
    cases xs with
    | nil => intro i hi; simp [adjIntervals] at hi
    | cons y rest =>
      intro i hi
      simp only [adjIntervals] at hi
      by_cases hin : inClosed ⟨(x + y) / 2, c⟩ r = true
      · rw [if_pos hin] at hi
        rcases List.mem_cons.1 hi with hi | hi
        · subst hi
          exact ⟨by simp, by simp⟩
        · have hk := ih i hi
          exact ⟨List.mem_cons_of_mem x hk.1, List.mem_cons_of_mem x hk.2⟩
      · rw [if_neg hin] at hi
        have hk := ih i hi
        exact ⟨List.mem_cons_of_mem x hk.1, List.mem_cons_of_mem x hk.2⟩

theorem mergeInto_mem :
    ∀ (rest : List (Frac × Frac)) (i j : Frac × Frac), j ∈ mergeInto i rest →
      (j.1 = i.1 ∨ ∃ k ∈ rest, j.1 = k.1) ∧ (j.2 = i.2 ∨ ∃ k ∈ rest, j.2 = k.2) := by
  intro rest
  induction rest with
  | nil =>
    intro i j hj
    simp only [mergeInto, List.mem_singleton] at hj
    exact ⟨Or.inl (by rw [hj]), Or.inl (by rw [hj])⟩
  | cons k ks ih =>
    intro i j hj
    simp only [mergeInto] at hj
    by_cases hb : Frac.beq i.2 k.1 = true
    · rw [if_pos hb] at hj
      have h := ih (i.1, k.2) j hj
      refine ⟨?_, ?_⟩
      · rcases h.1 with h1 | ⟨m, hm, he⟩
        · exact Or.inl h1
        · exact Or.inr ⟨m, by simp [hm], he⟩
      · rcases h.2 with h1 | ⟨m, hm, he⟩
        · exact Or.inr ⟨k, by simp, h1⟩
        · exact Or.inr ⟨m, by simp [hm], he⟩
    · rw [if_neg hb] at hj
      rcases List.mem_cons.1 hj with hj | hj
      · exact ⟨Or.inl (by rw [hj]), Or.inl (by rw [hj])⟩
      · have h := ih k j hj
        refine ⟨?_, ?_⟩
        · rcases h.1 with h1 | ⟨m, hm, he⟩
          · exact Or.inr ⟨k, by simp, h1⟩
          · exact Or.inr ⟨m, by simp [hm], he⟩
        · rcases h.2 with h1 | ⟨m, hm, he⟩
          · exact Or.inr ⟨k, by simp, h1⟩
          · exact Or.inr ⟨m, by simp [hm], he⟩

theorem mergeAdj_mem {l : List (Frac × Frac)} {j : Frac × Frac} (hj : j ∈ mergeAdj l) :
    (∃ k ∈ l, j.1 = k.1) ∧ (∃ k ∈ l, j.2 = k.2) := by
  cases l with
  | nil => simp [mergeAdj] at hj
  | cons i rest =>
    have hj2 : j ∈ mergeInto i rest := hj
    have h := mergeInto_mem rest i j hj2
    refine ⟨?_, ?_⟩
    · rcases h.1 with h1 | ⟨k, hk, he⟩
      · exact ⟨i, by simp, h1⟩
      · exact ⟨k, by simp [hk], he⟩
    · rcases h.2 with h1 | ⟨k, hk, he⟩
      · exact ⟨i, by simp, h1⟩
      · exact ⟨k, by simp [hk], he⟩

/-- Every intersection part of the horizontal slice lies at height `c` with
both endpoints inside the requested x-range. -/
theorem sliceAt_mem_range {c minx maxx : Frac} {r : Poly} {s : Pt × Pt}
    (hs : s ∈ sliceAt c minx maxx r) :
    s.1.y = c ∧ s.2.y = c ∧
    (Frac.ble minx s.1.x && Frac.ble s.1.x maxx) = true ∧
    (Frac.ble minx s.2.x && Frac.ble s.2.x maxx) = true := by
  unfold sliceAt at hs
  dsimp only at hs
  obtain ⟨i, hi, hie⟩ := List.mem_map.1 hs
  obtain ⟨⟨k1, hk1, he1⟩, ⟨k2, hk2, he2⟩⟩ := mergeAdj_mem hi
  have ha1 := (adjIntervals_mem c r _ k1 hk1).1
  have ha2 := (adjIntervals_mem c r _ k2 hk2).2
  have hr1 : (Frac.ble minx k1.1 && Frac.ble k1.1 maxx) = true :=
    (List.mem_filter.1 (mem_sortDedup ha1)).2
  have hr2 : (Frac.ble minx k2.2 && Frac.ble k2.2 maxx) = true :=
    (List.mem_filter.1 (mem_sortDedup ha2)).2
  refine ⟨by rw [← hie], by rw [← hie], ?_, ?_⟩
  · rw [← hie]
    dsimp only
    rw [he1]
    exact hr1
  · rw [← hie]
    dsimp only
    rw [he2]
    exact hr2

/-- The geometry block under the repair trigger: the result is the midpoint
of the first intersection part. -/
theorem processGeom_repair {simplifyFn : List Poly → RawGeom} {g : RawGeom} {r : Poly}
    {tl simple : List Poly} {seg : Pt × Pt} {segs : List (Pt × Pt)}
    (hco : coerceMulti g = .ok (r :: tl))
    (hsi : coerceSimplified (simplifyFn (r :: tl)) = .ok simple)
    (hout : withinMulti (multiCentroid (r :: tl)) (r :: tl) = false)
    (hseg : sliceAt (polyCentroid r).y (minX r) (maxX r) r = seg :: segs) :
    processGeom simplifyFn g = .ok (r :: tl, simple, segMidpoint seg) := by
  unfold processGeom
  rw [hco]
  show (coerceSimplified (simplifyFn (r :: tl))).bind _ = _
  rw [hsi]
  show (if withinMulti (multiCentroid (r :: tl)) (r :: tl) then _ else _) = _
  rw [hout]
  show (match r :: tl with
    | [] => Except.error GeomError.emptyMulti
    | r :: _ =>
      match sliceAt (polyCentroid r).y (minX r) (maxX r) r with
      | [] => Except.error GeomError.emptyIntersection
      | seg :: _ => Except.ok (r :: tl, simple, segMidpoint seg)) = _
  dsimp only
  rw [hseg]

/-! ## Claim C4 -/

/-- C4 (amended): for a multipolygon whose computed centroid is not within
the geometry, the repairer replaces it by the centroid (midpoint) of the
first part of the intersection of the horizontal segment — spanning the
first member polygon's x-extent at that polygon's own centroid latitude —
with the first member polygon; the repaired centroid provably lies at that
centroid latitude within the first polygon's x-extent, but it is NOT
guaranteed to lie inside the geometry (see the counterexample, where it
lands on the boundary). -/
theorem C4_amended_thm (simplifyFn : List Poly → RawGeom) (g : RawGeom) (r : Poly)
    (tl simple : List Poly) (seg : Pt × Pt) (segs : List (Pt × Pt))
    (hco : coerceMulti g = .ok (r :: tl))
    (hsi : coerceSimplified (simplifyFn (r :: tl)) = .ok simple)
    (hout : withinMulti (multiCentroid (r :: tl)) (r :: tl) = false)
    (hseg : sliceAt (polyCentroid r).y (minX r) (maxX r) r = seg :: segs) :
    processGeom simplifyFn g = .ok (r :: tl, simple, segMidpoint seg) ∧
    Frac.beq (segMidpoint seg).y (polyCentroid r).y = true ∧
    Frac.ble (minX r) (segMidpoint seg).x = true ∧
    Frac.ble (segMidpoint seg).x (maxX r) = true := by
  have hmem : seg ∈ sliceAt (polyCentroid r).y (minX r) (maxX r) r := by
    rw [hseg]
    exact List.mem_cons_self _ _
  obtain ⟨hy1, hy2, hx1, hx2⟩ := sliceAt_mem_range hmem
  obtain ⟨hx1a, hx1b⟩ := Bool.and_eq_true_iff.1 hx1
  obtain ⟨hx2a, hx2b⟩ := Bool.and_eq_true_iff.1 hx2
  refine ⟨processGeom_repair hco hsi hout hseg, ?_, ?_, ?_⟩
  · show Frac.beq ((seg.1.y + seg.2.y) / 2) (polyCentroid r).y = true
    rw [hy1, hy2]
    exact frac_beq_half_self _
  · show Frac.ble (minX r) ((seg.1.x + seg.2.x) / 2) = true
    exact frac_ble_midpoint_left hx1a hx2a
  · show Frac.ble ((seg.1.x + seg.2.x) / 2) (maxX r) = true
    exact frac_ble_midpoint_right hx1b hx2b

/-- C4 witness: the shelf multipolygon of the counterexample; its computed
centroid is outside, the repair runs, and the repaired centroid sits on the
first polygon's centroid latitude inside its x-extent. -/
theorem C4_amended_witness :
    (coerceMulti (.multi mpShelf) = .ok (polyShelf :: [polyFar]) ∧
      coerceSimplified (simplifyId (polyShelf :: [polyFar])) = .ok mpShelf ∧
      withinMulti (multiCentroid (polyShelf :: [polyFar])) (polyShelf :: [polyFar]) = false ∧
      sliceAt (polyCentroid polyShelf).y (minX polyShelf) (maxX polyShelf) polyShelf =
        segShelf :: sliceShelf.tail) ∧
    (processGeom simplifyId (.multi mpShelf) =
        .ok (polyShelf :: [polyFar], mpShelf, segMidpoint segShelf) ∧
      Frac.beq (segMidpoint segShelf).y (polyCentroid polyShelf).y = true ∧
      Frac.ble (minX polyShelf) (segMidpoint segShelf).x = true ∧
      Frac.ble (segMidpoint segShelf).x (maxX polyShelf) = true) :=
  ⟨⟨by decide, by decide, by decide, by decide⟩,
   C4_amended_thm simplifyId (.multi mpShelf) polyShelf [polyFar] mpShelf segShelf
     sliceShelf.tail (by decide) (by decide) (by decide) (by decide)⟩

/-! ## Claim C5 -/

/-- C5: a per-feature geometry failure (unsupported type, degenerate
geometry, repair or intersection failure) only skips that feature, with a
recorded failure and no Geounit row for it; every feature whose geometry
block succeeds is still imported.  `import_shape` ends without error,
appends exactly one Geounit per geometry success, and records exactly the
failed features' ids, in order.  (The hypothesis on `charsOk` reflects that
an unparseable attribute value of a *successfully imported* feature is a
separate, fatal failure mode — claim C3.) -/
theorem C5_per_feature_geometry_failure (simplifyFn : List Poly → RawGeom)
    (saveFails : Int → Bool) (scfg : ShapeCfg) (feats : List Feature) (st : ImportState)
    (grow : GeolevelRow) (subjObjs : List (String × String))
    (hgl : st.db.geolevels.find? (fun r => r.name == scfg.geolevel) = some grow)
    (hso : buildSubjObjs st.db scfg.subject_fields = .ok subjObjs)
    (hch : ∀ f ∈ feats, (mkGeounit simplifyFn scfg f).isSome = true →
      charsOk subjObjs f = true) :
    (importShape simplifyFn saveFails scfg feats st).2 = none ∧
    (importShape simplifyFn saveFails scfg feats st).1.db.geounits.length =
      st.db.geounits.length +
        (feats.filter fun f => (mkGeounit simplifyFn scfg f).isSome).length ∧
    (importShape simplifyFn saveFails scfg feats st).1.geomFailures =
      st.geomFailures ++
        ((feats.filter fun f => !(mkGeounit simplifyFn scfg f).isSome).map fun f => f.fid) := by
  unfold importShape
  rw [hgl]
  simp only [hso]
  have key := importShapeGo_spec simplifyFn saveFails scfg subjObjs feats st hch
  exact ⟨key.1, key.2.1, key.2.2.1⟩

/-- C5 witness: importing five features of which feature 3 has an invalid
geometry yields exactly 4 Geounits and the single recorded failure `[3]`. -/
theorem C5_witness :
    ((importShape simplifyId noSaveFailure scfgOneLevel featsFive stOneLevel).2 = none ∧
      (importShape simplifyId noSaveFailure scfgOneLevel featsFive stOneLevel).1.db.geounits.length =
        stOneLevel.db.geounits.length +
          (featsFive.filter fun f => (mkGeounit simplifyId scfgOneLevel f).isSome).length ∧
      (importShape simplifyId noSaveFailure scfgOneLevel featsFive stOneLevel).1.geomFailures =
        stOneLevel.geomFailures ++
          ((featsFive.filter fun f => !(mkGeounit simplifyId scfgOneLevel f).isSome).map
            fun f => f.fid)) ∧
    (importShape simplifyId noSaveFailure scfgOneLevel featsFive stOneLevel).1.db.geounits.length = 4 ∧
    (importShape simplifyId noSaveFailure scfgOneLevel featsFive stOneLevel).1.geomFailures = [3] :=
  ⟨C5_per_feature_geometry_failure simplifyId noSaveFailure scfgOneLevel featsFive stOneLevel
      ⟨"county", "1", "1"⟩ [] (by decide) (by decide) (by decide),
    by decide, by decide⟩

end DistrictBuilder
